import Mathlib

/-!
Verification of the memory-augmented invoice-correction pipeline.

This file is a shallow embedding, in Lean 4, of the core of the
"Auditable Memory Layer for Document Automation" repository:

* `src/engine/confidenceDecay.ts` — `daysSince`, `decayedConfidence`, `clamp01`;
* `src/engine/duplicateGuard.ts` — `computeFingerprint`, `detectDuplicate`,
  `recordDuplicate`;
* `src/db/vendorMemory.ts`, `src/db/correctionMemory.ts`,
  `src/db/resolutionMemory.ts`, `src/db/learningEvents.ts` — the three memory
  stores and the learning-events table;
* `src/admin/commands.ts` — the administrative disable/reset commands;
* `src/engine/runPipeline.ts` — the pipeline engine (duplicate gate, recall,
  apply, decide, learn).

Modelling conventions, used throughout and noted again at each definition
where they matter:

* JavaScript numbers that the program stores or reads from SQLite / JSON are
  modelled as `ℚ` (every runtime double is rational); values produced by the
  exponential decay computation are modelled as `ℝ`, since `Math.exp` is the
  one place irrational values arise.  Definitions touching `ℝ` comparisons are
  `noncomputable` (classical order on `ℝ`); everything else is executable.
* ISO-8601 timestamp strings are modelled by their parsed epoch value
  (milliseconds, `ℚ`): the program only ever writes `Date#toISOString()` of a
  known instant and reads timestamps back through `new Date(iso).getTime()`,
  and that round trip is the identity on well-formed timestamps.  A `null` /
  absent / unparsable timestamp is `Option.none`.
* SQLite tables are modelled as Lean lists in `rowid` (insertion) order;
  `SELECT ... ORDER BY rowid ASC LIMIT 1` is `List.find?`.  `INSERT OR
  REPLACE` on a primary key removes the old row and appends the new one
  (matching the fresh rowid SQLite assigns).
* JS `undefined` and JSON `null` field values are both modelled as
  `Option.none` on the extracted-invoice record.
-/

namespace InvoicePipeline

/-! ### 4.1 ConfidenceDecay (`src/engine/confidenceDecay.ts`) -/

/-- `clamp01` from `confidenceDecay.ts`: `Math.max(0, Math.min(1, x))`. -/
noncomputable def clamp01 (x : ℝ) : ℝ := max 0 (min 1 x)

/-- The value space of the JS `days` number as produced by `daysSince`:
either a finite (nonnegative) number of days or `Number.POSITIVE_INFINITY`.
(`daysSince` never produces `NaN` or negative infinity, which the guard in
`decayedConfidence` would also send to `0`.) -/
inductive JDays where
  | finite (d : ℝ)
  | posInf

/-- `daysSince(iso, now)` from `confidenceDecay.ts`.  `iso` is the stored
timestamp (epoch milliseconds, `none` for `null`/unparsable), `now` the
logical instant.  Returns `+∞` when never used, `0` when the difference is
nonpositive, otherwise the difference in (fractional) days. -/
noncomputable def daysSince (iso : Option ℚ) (now : ℚ) : JDays :=
  match iso with
  | none => .posInf
  | some t =>
    let diffMs := now - t
    if diffMs ≤ 0 then .finite 0
    else .finite ((diffMs : ℝ) / (1000 * 60 * 60 * 24))

/-- `decayedConfidence(base, days, halfLifeDays = 30)` from
`confidenceDecay.ts`: exponential decay `base · 2^(−days/halfLife)`
via `Math.exp(-(Math.log 2 / halfLife) * days)`, with the source's guards:
non-finite `days` (here: `+∞`) gives `0`, `days ≤ 0` returns the clamped
base unchanged, and the result is clamped to `[0,1]`.  (The guard
`!Number.isFinite(base)` has no counterpart: every `ℝ` is finite.) -/
noncomputable def decayedConfidence (base : ℝ) (days : JDays)
    (halfLifeDays : ℝ := 30) : ℝ :=
  let b := clamp01 base
  match days with
  | .posInf => 0
  | .finite d =>
    if d ≤ 0 then b
    else
      let hl := max (1 / 1000000) halfLifeDays
      let lam := Real.log 2 / hl
      let factor := Real.exp (-lam * d)
      clamp01 (b * factor)

/-! Basic facts about the decay function. -/

theorem clamp01_nonneg (x : ℝ) : 0 ≤ clamp01 x := le_max_left 0 _

theorem clamp01_le_one (x : ℝ) : clamp01 x ≤ 1 := by
  unfold clamp01
  rw [max_le_iff]
  exact ⟨zero_le_one, min_le_left 1 x⟩

theorem clamp01_of_mem (x : ℝ) (h0 : 0 ≤ x) (h1 : x ≤ 1) : clamp01 x = x := by
  unfold clamp01
  rw [min_eq_right h1, max_eq_right h0]

theorem clamp01_mono {x y : ℝ} (h : x ≤ y) : clamp01 x ≤ clamp01 y := by
  unfold clamp01
  exact max_le_max le_rfl (min_le_min le_rfl h)

theorem clamp01_le_self {x : ℝ} (h0 : 0 ≤ x) : clamp01 x ≤ x := by
  unfold clamp01
  rw [max_le_iff]
  exact ⟨h0, min_le_right 1 x⟩

/-- The decay rate `Math.log(2) / Math.max(1e-6, halfLifeDays)` is
nonnegative. -/
theorem decay_lambda_nonneg (hl : ℝ) : 0 ≤ Real.log 2 / max (1 / 1000000) hl :=
  div_nonneg (Real.log_nonneg (by norm_num))
    (le_of_lt (lt_of_lt_of_le (by norm_num) (le_max_left _ _)))

/-- The exponential decay factor lies in `(0, 1]` for nonnegative elapsed
days. -/
theorem decay_factor_le_one (hl : ℝ) {d : ℝ} (hd : 0 ≤ d) :
    Real.exp (-(Real.log 2 / max (1 / 1000000) hl) * d) ≤ 1 := by
  rw [Real.exp_le_one_iff]
  have := mul_nonneg (decay_lambda_nonneg hl) hd
  linarith

/-- A clamped base times a factor in `[0,1]` clamps back below the clamped
base. -/
theorem clamp01_mul_factor_le (b f : ℝ) (hf0 : 0 ≤ f) (hf1 : f ≤ 1) :
    clamp01 (clamp01 b * f) ≤ clamp01 b := by
  have hb0 : 0 ≤ clamp01 b := clamp01_nonneg b
  calc clamp01 (clamp01 b * f) ≤ clamp01 b * f :=
        clamp01_le_self (mul_nonneg hb0 hf0)
    _ ≤ clamp01 b * 1 := mul_le_mul_of_nonneg_left hf1 hb0
    _ = clamp01 b := mul_one _

/-- The decay factor never exceeds 1, so decay never raises a confidence
that is already in `[0,1]`: `decayedConfidence base days ≤ clamp01 base`. -/
theorem decayedConfidence_le_clamp (base : ℝ) (days : JDays) (hl : ℝ) :
    decayedConfidence base days hl ≤ clamp01 base := by
  unfold decayedConfidence
  cases days with
  | posInf => exact clamp01_nonneg base
  | finite d =>
    by_cases hd : d ≤ 0
    · simp [hd]
    · simp only [hd, if_false]
      exact clamp01_mul_factor_le base _ (le_of_lt (Real.exp_pos _))
        (decay_factor_le_one hl (le_of_not_le hd))

/-- Monotonicity of the decay: more elapsed days, not more effective
confidence (finite days case). -/
theorem decayedConfidence_antitone (base : ℝ) (hl : ℝ) {d₁ d₂ : ℝ}
    (h12 : d₁ ≤ d₂) :
    decayedConfidence base (.finite d₂) hl ≤ decayedConfidence base (.finite d₁) hl := by
  by_cases h1 : d₁ ≤ 0
  · have : decayedConfidence base (.finite d₁) hl = clamp01 base := by
      unfold decayedConfidence; simp [h1]
    rw [this]
    exact decayedConfidence_le_clamp base (.finite d₂) hl
  · have h2 : ¬ d₂ ≤ 0 := fun h => h1 (h12.trans h)
    unfold decayedConfidence
    simp only [h1, h2, if_false]
    apply clamp01_mono
    apply mul_le_mul_of_nonneg_left _ (clamp01_nonneg base)
    apply Real.exp_le_exp.mpr
    have hlam := decay_lambda_nonneg hl
    nlinarith

/-! ### Vendor memory rows (`src/db/vendorMemory.ts`, table `vendor_memory`) -/

/-- `status` values of a vendor-memory entry (TS type
`"active" | "disabled" | "suspect"`; the column is `TEXT NOT NULL` and only
these values are ever written). -/
inductive VStatus where
  | active
  | suspect
  | disabled
  deriving DecidableEq

/-- One `vendor_memory` row.  `confidence REAL` is a stored double, modelled
as `ℚ`; `lastUsedAt TEXT` is a timestamp (epoch ms) or `NULL`; `disabledAt`
is the column added by the migration (set only by the admin `disable`
command). -/
structure VendorMemoryRow where
  id : String
  vendor : String
  kind : String
  pattern : String
  confidence : ℚ
  supportCount : ℕ
  rejectCount : ℕ
  lastUsedAt : Option ℚ
  status : VStatus
  disabledAt : Option ℚ
  deriving DecidableEq

/-- `canApplyVendorMem(mem, now)` from `src/engine/runPipeline.ts`: the
usability gate every heuristic passes before trusting vendor memory.
`mem.lastUsedAt ?? mem.createdAt ?? null` collapses to `lastUsedAt` because
the `vendor_memory` table has no `createdAt` column (so that property is
always `undefined`).  The `!mem` guard is the `none` case. -/
noncomputable def canApplyVendorMem (mem : Option VendorMemoryRow) (now : ℚ) : Bool :=
  match mem with
  | none => false
  | some m =>
    if m.status ≠ .active then false
    else if 2 ≤ m.rejectCount then false
    else
      let base : ℝ := (m.confidence : ℝ)
      let ageDays := daysSince m.lastUsedAt now
      let eff := decayedConfidence base ageDays
      decide ((0.65 : ℝ) ≤ eff)

theorem clamp01_lt_of_lt {x : ℝ} (h : x < 0.65) : clamp01 x < 0.65 := by
  unfold clamp01
  rw [max_lt_iff]
  exact ⟨by norm_num, lt_of_le_of_lt (min_le_right 1 x) h⟩

/-- **C1.** The vendor-memory usability gate: an entry is usable only if its
status is `active`, its `rejectCount` is strictly below 2, and its decayed
confidence (via `decayedConfidence` / `daysSince` at the logical instant
`now`) is at least the 0.65 trust floor.  Consequently an entry whose raw
stored confidence is below 0.65 is rejected without needing decay, and an
entry with `rejectCount = 2` is unusable regardless of confidence or
recency. -/
theorem vendor_memory_usability_gate (m : VendorMemoryRow) (now : ℚ) :
    (canApplyVendorMem (some m) now = true →
       m.status = .active ∧ m.rejectCount < 2 ∧
       (0.65 : ℝ) ≤ decayedConfidence (m.confidence : ℝ) (daysSince m.lastUsedAt now)) ∧
    ((m.confidence : ℚ) < 0.65 → canApplyVendorMem (some m) now = false) ∧
    (m.rejectCount = 2 → canApplyVendorMem (some m) now = false) := by
  refine ⟨?_, ?_, ?_⟩
  · intro h
    unfold canApplyVendorMem at h
    by_cases hs : m.status ≠ .active
    · simp [hs] at h
    · by_cases hr : 2 ≤ m.rejectCount
      · simp [hs, hr] at h
      · simp only [hs, hr, if_false, if_true, decide_eq_true_eq] at h
        exact ⟨not_not.mp hs, lt_of_not_le hr, h⟩
  · intro hc
    unfold canApplyVendorMem
    by_cases hs : m.status ≠ .active
    · simp [hs]
    · by_cases hr : 2 ≤ m.rejectCount
      · simp [hs, hr]
      · simp only [hs, hr, if_false, if_true]
        have hcr : ((m.confidence : ℝ)) < 0.65 := by
          have := (Rat.cast_lt (K := ℝ)).mpr hc
          simpa using this
        have heff : decayedConfidence (m.confidence : ℝ) (daysSince m.lastUsedAt now) < 0.65 :=
          lt_of_le_of_lt
            (decayedConfidence_le_clamp (m.confidence : ℝ) (daysSince m.lastUsedAt now) 30)
            (clamp01_lt_of_lt hcr)
        simpa using not_le.mpr heff
  · intro hr
    unfold canApplyVendorMem
    by_cases hs : m.status ≠ .active
    · simp [hs]
    · simp [hs, hr]

/-- **C1 witness.** A fresh, recently used entry passes the gate and
satisfies the three necessary conditions. -/
theorem vendor_memory_usability_gate_witness :
    canApplyVendorMem (some ⟨"Acme::k::p", "Acme", "k", "p", 0.9, 1, 0, some 0,
        .active, none⟩) 0 = true ∧
    ((⟨"Acme::k::p", "Acme", "k", "p", 0.9, 1, 0, some 0,
        .active, none⟩ : VendorMemoryRow).status = .active ∧
     (⟨"Acme::k::p", "Acme", "k", "p", 0.9, 1, 0, some 0,
        .active, none⟩ : VendorMemoryRow).rejectCount < 2 ∧
     (0.65 : ℝ) ≤ decayedConfidence
        ((⟨"Acme::k::p", "Acme", "k", "p", 0.9, 1, 0, some 0,
          .active, none⟩ : VendorMemoryRow).confidence : ℝ)
        (daysSince (some 0) 0)) := by
  have h : canApplyVendorMem (some ⟨"Acme::k::p", "Acme", "k", "p", 0.9, 1, 0, some 0,
      .active, none⟩) 0 = true := by
    unfold canApplyVendorMem daysSince decayedConfidence
    norm_num
    rw [clamp01_of_mem _ (by norm_num) (by norm_num)]
    norm_num
  exact ⟨h, (vendor_memory_usability_gate _ 0).1 h⟩

/-- **C2.** The confidence-decay contract: for `c ∈ [0,1]` the decayed
confidence is non-increasing in the elapsed days, equals `c` at `d = 0` and
for every `d ≤ 0`, is `0` at `+∞` (and `daysSince` of a `null`/unparsable
timestamp is `+∞`), and for all inputs the result lies in `[0,1]`. -/
theorem decayedConfidence_contract (c : ℝ) (hc0 : 0 ≤ c) (hc1 : c ≤ 1) :
    (∀ d₁ d₂ : ℝ, 0 ≤ d₁ → d₁ ≤ d₂ →
       decayedConfidence c (.finite d₂) ≤ decayedConfidence c (.finite d₁)) ∧
    decayedConfidence c (.finite 0) = c ∧
    (∀ d : ℝ, d ≤ 0 → decayedConfidence c (.finite d) = c) ∧
    decayedConfidence c .posInf = 0 ∧
    (∀ now : ℚ, daysSince none now = .posInf) ∧
    (∀ (b : ℝ) (days : JDays),
       0 ≤ decayedConfidence b days ∧ decayedConfidence b days ≤ 1) := by
  have hzero : ∀ d : ℝ, d ≤ 0 → decayedConfidence c (.finite d) = c := by
    intro d hd
    unfold decayedConfidence
    simp only [hd, if_true]
    exact clamp01_of_mem c hc0 hc1
  refine ⟨?_, hzero 0 le_rfl, hzero, rfl, fun _ => rfl, ?_⟩
  · intro d₁ d₂ _ h12
    exact decayedConfidence_antitone c 30 h12
  · intro b days
    unfold decayedConfidence
    cases days with
    | posInf => exact ⟨le_rfl, zero_le_one⟩
    | finite d =>
      by_cases hd : d ≤ 0
      · simp only [hd, if_true]
        exact ⟨clamp01_nonneg b, clamp01_le_one b⟩
      · simp only [hd, if_false]
        exact ⟨clamp01_nonneg _, clamp01_le_one _⟩

/-- **C2 witness.** The contract instantiated at `c = 1/2`: no decay at
`d = 0`. -/
theorem decayedConfidence_contract_witness :
    (0 : ℝ) ≤ 1/2 ∧ (1/2 : ℝ) ≤ 1 ∧
    decayedConfidence (1/2) (.finite 0) = 1/2 := by
  refine ⟨by norm_num, by norm_num, ?_⟩
  exact (decayedConfidence_contract (1/2) (by norm_num) (by norm_num)).2.1

/-! ### String utilities

The TS sources use `String#toLowerCase`, `String#trim`, `String#includes`,
`String#slice` and a handful of regular expressions.  These are modelled as
executable char-list scanners with the same observable behaviour on the
ASCII texts the program handles (JS `\w` is `[A-Za-z0-9_]`, `\s` is
whitespace, `\d` is `[0-9]`). -/

/-- `needle` is a prefix of `hay` (char-exact). -/
def prefixOf : List Char → List Char → Bool
  | [], _ => true
  | _ :: _, [] => false
  | a :: as, b :: bs => a = b && prefixOf as bs

/-- JS `hay.includes(needle)`. -/
def hasSub : List Char → List Char → Bool
  | [], needle => needle.isEmpty
  | a :: t, needle => prefixOf needle (a :: t) || hasSub t needle

/-- Consume a literal prefix, returning the rest. -/
def dropLit : List Char → List Char → Option (List Char)
  | [], l => some l
  | _ :: _, [] => none
  | a :: as, b :: bs => if a = b then dropLit as bs else none

/-- JS word character (`\w`). -/
def isWordChar (c : Char) : Bool := c.isAlphanum || c = '_'

/-- Lowercase a string character-wise (JS `toLowerCase` on ASCII). -/
def lowerStr (s : String) : String := ⟨s.data.map Char.toLower⟩

/-- Trim leading/trailing whitespace from a char list (JS `trim`). -/
def trimChars (l : List Char) : List Char :=
  ((l.dropWhile Char.isWhitespace).reverse.dropWhile Char.isWhitespace).reverse

/-- `normalize(s)` from `src/engine/duplicateGuard.ts`:
`String(s ?? "").trim().toLowerCase()`. -/
def jsNormalize (s : String) : String := ⟨trimChars (s.data.map Char.toLower)⟩

/-- Digits of a char list as a natural number (JS `Number` on a digit
string). -/
def digitsToNat (l : List Char) : ℕ :=
  l.foldl (fun acc c => acc * 10 + (c.toNat - '0'.toNat)) 0

/-! ### Duplicate guard (`src/engine/duplicateGuard.ts`) -/

/-- The five components of `computeFingerprint`, which the source joins with
`"|"`.  Keeping the components separate models string equality of the joined
forms (`normalize` of a stored double is injective, and none of the
components contain the delimiter in the data the program handles).  The
`total` component is the first available of `grossTotal`/`netTotal` — the
top-level and `normalizedInvoice` aliases in the source's fallback chains are
always absent on the extracted-invoice shape (`InvoiceExtracted` has only
`invoiceId`, `vendor`, `fields`, `confidence`, `rawText`), so each chain
collapses to the `fields` access; `none` models the empty string produced
when both totals are missing. -/
structure Fingerprint where
  vendor : String
  invoiceNumber : String
  currency : String
  total : Option ℚ
  rawSlice : String
  deriving DecidableEq

/-- One invoice line item (`fields.lineItems[]`). -/
structure LineItem where
  sku : Option String
  qty : Option ℚ
  description : Option String
  deriving DecidableEq

/-- A loosely typed JS value as it appears in correction `from`/`to` slots
and `discountTerms`. -/
inductive JVal where
  | jnull
  | str (s : String)
  | num (q : ℚ)
  | skonto (percent days : ℚ)
  deriving DecidableEq

/-- The structured field map of an extracted invoice.  `none` models an
absent (`undefined`) or JSON-`null` field. -/
structure Fields where
  invoiceNumber : Option String
  invoiceDate : Option String
  serviceDate : Option String
  currency : Option String
  netTotal : Option ℚ
  grossTotal : Option ℚ
  taxTotal : Option ℚ
  taxRate : Option ℚ
  poNumber : Option String
  discountTerms : Option JVal
  lineItems : List LineItem
  deriving DecidableEq

/-- An extracted invoice (the `InvoiceExtracted` shape fed to the engine). -/
structure Invoice where
  invoiceId : String
  vendor : String
  rawText : Option String
  fields : Fields
  deriving DecidableEq

/-- One `invoice_runs` row (created by the caller; the engine only updates
the duplicate columns). -/
structure InvoiceRun where
  invoiceId : String
  vendor : String
  dataset : String
  createdAt : ℚ
  invoiceNumber : Option String
  fingerprint : Option Fingerprint
  isDuplicate : Bool
  duplicateOfInvoiceId : Option String
  deriving DecidableEq

/-- One `duplicate_records` row (`invoiceId` is the primary key). -/
structure DuplicateRecord where
  invoiceId : String
  vendor : String
  fingerprint : Fingerprint
  duplicateOfInvoiceId : Option String
  reason : String
  createdAt : ℚ
  deriving DecidableEq

/-- One `correction_memory` row (`src/db/correctionMemory.ts`).  The
`status` column is optional in the schema (feature-detected via
`hasStatusColumn`); a row of a schema without the column has `status =
none`. -/
structure CorrectionMemoryRow where
  id : String
  vendor : String
  fieldPath : String
  patternType : String
  patternValue : String
  recommendedValue : String
  confidence : ℚ
  supportCount : ℕ
  rejectCount : ℕ
  lastUsedAt : Option ℚ
  createdAt : ℚ
  status : Option VStatus
  deriving DecidableEq

/-- A human decision value. -/
inductive RDecision where
  | approved
  | rejected
  deriving DecidableEq

/-- The embedded `valueJson` of a resolution-memory row
(`ResolutionValueJson`); `safeParseValueJson` round-trips it, so it is
modelled structurally. -/
structure RValue where
  approved : ℕ
  rejected : ℕ
  lastDecision : Option RDecision
  lastInvoiceId : Option String
  deriving DecidableEq

/-- One `resolution_memory` row; the migrated schema has both the
`rejectCount` and `disabledAt` columns, so the module's feature detection
(`hasCol`) finds them. -/
structure ResolutionRow where
  vendor : String
  key : String
  value : RValue
  confidence : ℚ
  rejectCount : ℕ
  lastUsedAt : Option ℚ
  disabledAt : Option ℚ
  createdAt : ℚ
  deriving DecidableEq

/-- Structured payloads of `audit_events.metaJson` (the source
`JSON.stringify`s these objects; they are modelled structurally). -/
inductive AuditMeta where
  | dupDetected (duplicateOfInvoiceId reason : String)
  | corrRejected (id : String) (rejectCount : ℕ) (status : Option VStatus)
  | resolution (key : String) (approved rejected : ℕ)
      (lastDecision : Option RDecision) (lastInvoiceId : Option String)
  | learnUpdates (updates : List String)
  | adminDisable (changes : ℕ)
  | adminReset (toConf : ℚ) (changes : ℕ)
  deriving DecidableEq

/-- One `audit_events` row. -/
structure AuditEvent where
  ts : ℚ
  eventType : String
  vendor : Option String
  invoiceId : Option String
  entityType : Option String
  entityId : Option String
  meta : Option AuditMeta
  deriving DecidableEq

/-- The persistent store: each table as a list in `rowid` (insertion)
order.  `corrHasStatus` is the cached schema capability probed by
`hasStatusColumn(db)` in `src/db/correctionMemory.ts`. -/
structure DB where
  invoiceRuns : List InvoiceRun
  duplicateRecords : List DuplicateRecord
  vendorMemory : List VendorMemoryRow
  correctionMemory : List CorrectionMemoryRow
  corrHasStatus : Bool
  resolutionMemory : List ResolutionRow
  learningEvents : List String
  auditEvents : List AuditEvent
  deriving DecidableEq

/-- `computeFingerprint(invoice)` from `src/engine/duplicateGuard.ts`
(see `Fingerprint` for the modelling of the join and of the fallback
chains). -/
def computeFingerprint (invoice : Invoice) : Fingerprint :=
  { vendor := jsNormalize invoice.vendor
    invoiceNumber := jsNormalize (invoice.fields.invoiceNumber.getD "")
    currency := jsNormalize (invoice.fields.currency.getD "")
    total := invoice.fields.grossTotal <|> invoice.fields.netTotal
    rawSlice := ⟨(jsNormalize (invoice.rawText.getD "")).data.take 220⟩ }

/-- The textual duplicate cues checked by `detectDuplicate` (on the
lowercased raw text). -/
def hasDuplicateCue (rawText : String) : Bool :=
  let raw := (lowerStr rawText).data
  hasSub raw "duplicate submission".data ||
  hasSub raw "erneute zusendung".data ||
  hasSub raw "duplicate".data ||
  hasSub raw "erneut".data

/-- The `isDuplicate: true` payload of `detectDuplicate` (the
`isDuplicate: false` case is `none`). -/
structure DupResult where
  duplicateOfInvoiceId : String
  reason : String
  fingerprint : Fingerprint
  deriving DecidableEq

/-- `detectDuplicate(db, invoice, now)` from `src/engine/duplicateGuard.ts`.
`SELECT ... ORDER BY rowid ASC LIMIT 1` is `List.find?` over the table in
insertion order; the `duplicate_records` fallback orders by `createdAt`,
which is nondecreasing in insertion order (rows are only ever appended with
the current instant), so it is also `List.find?`. -/
def detectDuplicate (db : DB) (invoice : Invoice) : Option DupResult :=
  let vendor := invoice.vendor
  let invoiceId := invoice.invoiceId
  let invoiceNumber := invoice.fields.invoiceNumber.getD ""
  let fingerprint := computeFingerprint invoice
  let cue := hasDuplicateCue (invoice.rawText.getD "")
  let numberReason :=
    if cue then
      "Duplicate cue found in rawText; vendor+invoiceNumber already seen (" ++
        invoiceNumber ++ ")."
    else
      "Same vendor+invoiceNumber already seen (" ++ invoiceNumber ++ ")."
  if vendor ≠ "" ∧ invoiceNumber ≠ "" then
    match db.invoiceRuns.find? (fun r =>
        r.vendor = vendor ∧ r.invoiceNumber = some invoiceNumber ∧
        r.invoiceId ≠ invoiceId ∧ r.isDuplicate = false) with
    | some original =>
      some { duplicateOfInvoiceId := original.invoiceId
             reason := numberReason
             fingerprint := fingerprint }
    | none =>
      match db.invoiceRuns.find? (fun r =>
          r.vendor = vendor ∧ r.invoiceNumber = some invoiceNumber ∧
          r.invoiceId ≠ invoiceId) with
      | some anyRun =>
        let root := db.duplicateRecords.find? (fun d => d.invoiceId = anyRun.invoiceId)
        some { duplicateOfInvoiceId :=
                 ((root.bind (fun d => d.duplicateOfInvoiceId)).getD anyRun.invoiceId)
               reason := numberReason
               fingerprint := fingerprint }
      | none =>
        match db.duplicateRecords.find? (fun d =>
            d.vendor = vendor ∧ d.fingerprint = fingerprint ∧
            d.invoiceId ≠ invoiceId) with
        | some prior =>
          some { duplicateOfInvoiceId :=
                   ((prior.duplicateOfInvoiceId).getD prior.invoiceId)
                 reason := "Fingerprint match for vendor (fallback match)."
                 fingerprint := fingerprint }
        | none => none
  else
    match db.duplicateRecords.find? (fun d =>
        d.vendor = vendor ∧ d.fingerprint = fingerprint ∧
        d.invoiceId ≠ invoiceId) with
    | some prior =>
      some { duplicateOfInvoiceId := ((prior.duplicateOfInvoiceId).getD prior.invoiceId)
             reason := "Fingerprint match for vendor (fallback match)."
             fingerprint := fingerprint }
    | none => none

/-- `recordDuplicate(db, args)` from `src/engine/duplicateGuard.ts`:
`INSERT OR REPLACE` keyed by the `invoiceId` primary key (the replaced row
gets a fresh rowid, hence remove-then-append). -/
def recordDuplicate (db : DB) (invoiceId vendor : String) (fingerprint : Fingerprint)
    (duplicateOfInvoiceId : String) (reason : String) (now : ℚ) : DB :=
  { db with duplicateRecords :=
      (db.duplicateRecords.filter (fun d => d.invoiceId ≠ invoiceId)) ++
      [{ invoiceId := invoiceId, vendor := vendor, fingerprint := fingerprint
         duplicateOfInvoiceId := some duplicateOfInvoiceId, reason := reason
         createdAt := now }] }

/-- A `Fields` value with every field absent (used by concrete scenarios). -/
def baseFields : Fields :=
  { invoiceNumber := none, invoiceDate := none, serviceDate := none
    currency := none, netTotal := none, grossTotal := none, taxTotal := none
    taxRate := none, poNumber := none, discountTerms := none, lineItems := [] }

/-- An empty store (used by concrete scenarios; `corrHasStatus` as the
migrated schema reports it is irrelevant to the duplicate guard). -/
def emptyDB (corrHasStatus : Bool) : DB :=
  { invoiceRuns := [], duplicateRecords := [], vendorMemory := []
    correctionMemory := [], corrHasStatus := corrHasStatus
    resolutionMemory := [], learningEvents := [], auditEvents := [] }

/-- **C7.** Duplicate chains collapse to the root original: if the earliest
prior run carrying invoice C's vendor+invoice-number is invoice B, B itself
is marked duplicate (and no non-duplicate prior run carries the number), and
B's duplicate record points at A, then `detectDuplicate` resolves C to A —
not to B. -/
theorem duplicate_chain_collapse (db : DB) (inv : Invoice)
    (runB : InvoiceRun) (rec : DuplicateRecord) (A : String)
    (hv : inv.vendor ≠ "")
    (hn : inv.fields.invoiceNumber.getD "" ≠ "")
    (hnone : db.invoiceRuns.find? (fun r =>
        r.vendor = inv.vendor ∧
        r.invoiceNumber = some (inv.fields.invoiceNumber.getD "") ∧
        r.invoiceId ≠ inv.invoiceId ∧ r.isDuplicate = false) = none)
    (hB : db.invoiceRuns.find? (fun r =>
        r.vendor = inv.vendor ∧
        r.invoiceNumber = some (inv.fields.invoiceNumber.getD "") ∧
        r.invoiceId ≠ inv.invoiceId) = some runB)
    (hBdup : runB.isDuplicate = true)
    (hrec : db.duplicateRecords.find? (fun d => d.invoiceId = runB.invoiceId) = some rec)
    (hA : rec.duplicateOfInvoiceId = some A) :
    ∃ res, detectDuplicate db inv = some res ∧ res.duplicateOfInvoiceId = A := by
  unfold detectDuplicate
  rw [if_pos ⟨hv, hn⟩]
  simp only [hnone, hB, hrec]
  exact ⟨_, rfl, by simp [hA]⟩

/-- **C7 witness.** Invoice C matches duplicate B's number; B's duplicate
record points at A; the guard resolves C to A. -/
theorem duplicate_chain_collapse_witness :
    ∃ res,
      detectDuplicate
        { emptyDB false with
            invoiceRuns := [{ invoiceId := "B", vendor := "Acme", dataset := "d"
                              createdAt := 0, invoiceNumber := some "N1"
                              fingerprint := none, isDuplicate := true
                              duplicateOfInvoiceId := some "A" }]
            duplicateRecords := [{ invoiceId := "B", vendor := "Acme"
                                   fingerprint := ⟨"acme", "n1", "eur", some 100, ""⟩
                                   duplicateOfInvoiceId := some "A"
                                   reason := "seen", createdAt := 0 }] }
        { invoiceId := "C", vendor := "Acme", rawText := some ""
          fields := { baseFields with invoiceNumber := some "N1" } } = some res ∧
      res.duplicateOfInvoiceId = "A" := by
  apply duplicate_chain_collapse _ _
      { invoiceId := "B", vendor := "Acme", dataset := "d", createdAt := 0
        invoiceNumber := some "N1", fingerprint := none, isDuplicate := true
        duplicateOfInvoiceId := some "A" }
      { invoiceId := "B", vendor := "Acme"
        fingerprint := ⟨"acme", "n1", "eur", some 100, ""⟩
        duplicateOfInvoiceId := some "A", reason := "seen", createdAt := 0 }
      "A"
  · decide
  · decide
  · decide
  · decide
  · decide
  · decide
  · decide

/-- **C10.** A textual duplicate cue alone never marks an invoice duplicate:
if no prior run shares the invoice's vendor and invoice number and no
duplicate record shares its vendor and fingerprint, `detectDuplicate`
returns not-a-duplicate even though the raw text contains a cue. -/
theorem cue_alone_not_duplicate (db : DB) (inv : Invoice)
    (hcue : hasDuplicateCue (inv.rawText.getD "") = true)
    (hruns : ∀ r ∈ db.invoiceRuns,
        ¬(r.vendor = inv.vendor ∧
          r.invoiceNumber = some (inv.fields.invoiceNumber.getD "") ∧
          r.invoiceId ≠ inv.invoiceId))
    (hrecs : ∀ d ∈ db.duplicateRecords,
        ¬(d.vendor = inv.vendor ∧ d.fingerprint = computeFingerprint inv ∧
          d.invoiceId ≠ inv.invoiceId)) :
    detectDuplicate db inv = none := by
  have hrun1 : db.invoiceRuns.find? (fun r =>
      r.vendor = inv.vendor ∧
      r.invoiceNumber = some (inv.fields.invoiceNumber.getD "") ∧
      r.invoiceId ≠ inv.invoiceId ∧ r.isDuplicate = false) = none := by
    rw [List.find?_eq_none]
    intro r hr
    simp only [decide_eq_true_eq]
    intro ⟨h1, h2, h3, _⟩
    exact hruns r hr ⟨h1, h2, h3⟩
  have hrun2 : db.invoiceRuns.find? (fun r =>
      r.vendor = inv.vendor ∧
      r.invoiceNumber = some (inv.fields.invoiceNumber.getD "") ∧
      r.invoiceId ≠ inv.invoiceId) = none := by
    rw [List.find?_eq_none]
    intro r hr
    simp only [decide_eq_true_eq]
    exact hruns r hr
  have hrec : db.duplicateRecords.find? (fun d =>
      d.vendor = inv.vendor ∧ d.fingerprint = computeFingerprint inv ∧
      d.invoiceId ≠ inv.invoiceId) = none := by
    rw [List.find?_eq_none]
    intro d hd
    simp only [decide_eq_true_eq]
    exact hrecs d hd
  unfold detectDuplicate
  by_cases h : inv.vendor ≠ "" ∧ inv.fields.invoiceNumber.getD "" ≠ ""
  · rw [if_pos h, hrun1, hrun2, hrec]
  · rw [if_neg h, hrec]

/-- **C10 witness.** An invoice whose raw text reads "duplicate" against an
empty store is not marked duplicate. -/
theorem cue_alone_not_duplicate_witness :
    hasDuplicateCue ((some "duplicate" : Option String).getD "") = true ∧
    detectDuplicate (emptyDB false)
      { invoiceId := "C", vendor := "Acme", rawText := some "duplicate"
        fields := { baseFields with invoiceNumber := some "N1" } } = none := by
  refine ⟨by decide, ?_⟩
  apply cue_alone_not_duplicate
  · decide
  · intro r hr
    simp [emptyDB] at hr
  · intro d hd
    simp [emptyDB] at hd

/-! ### Vendor-memory store (`src/db/vendorMemory.ts`) and admin commands
(`src/admin/commands.ts`) -/

/-- `getVendorMemories(db, vendor)`: rows of the vendor with
`status = 'active' AND (disabledAt IS NULL OR disabledAt = '')` (an empty
`disabledAt` string never occurs with epoch-modelled timestamps, so the
filter is `disabledAt = none`). -/
def getVendorMemories (db : DB) (vendor : String) : List VendorMemoryRow :=
  db.vendorMemory.filter (fun r =>
    r.vendor = vendor ∧ r.status = .active ∧ r.disabledAt = none)

/-- The argument record of `upsertVendorMemory` (the TS `VendorMemory` type;
it carries no `disabledAt`). -/
structure VendorMemUpsert where
  id : String
  vendor : String
  kind : String
  pattern : String
  confidence : ℚ
  supportCount : ℕ
  rejectCount : ℕ
  lastUsedAt : Option ℚ
  status : VStatus
  deriving DecidableEq

/-- `upsertVendorMemory(db, mem)`: `INSERT ... ON CONFLICT(id) DO UPDATE`
overwriting every listed column — including `status` — but not `disabledAt`,
which is preserved on conflict and `NULL` on a fresh insert. -/
def upsertVendorMemory (db : DB) (mem : VendorMemUpsert) : DB :=
  if db.vendorMemory.any (fun r => r.id = mem.id) then
    { db with vendorMemory := db.vendorMemory.map (fun r =>
        if r.id = mem.id then
          { r with vendor := mem.vendor, kind := mem.kind, pattern := mem.pattern
                   confidence := mem.confidence, supportCount := mem.supportCount
                   rejectCount := mem.rejectCount, lastUsedAt := mem.lastUsedAt
                   status := mem.status }
        else r) }
  else
    { db with vendorMemory := db.vendorMemory ++
        [{ id := mem.id, vendor := mem.vendor, kind := mem.kind
           pattern := mem.pattern, confidence := mem.confidence
           supportCount := mem.supportCount, rejectCount := mem.rejectCount
           lastUsedAt := mem.lastUsedAt, status := mem.status
           disabledAt := none }] }

/-- Admin `disableVendorMemory` (`src/admin/commands.ts`): sets
`status='disabled', disabledAt=now` and emits an `ADMIN_ACTION` audit
event. -/
def disableVendorMemory (db : DB) (id : String) (now : ℚ) : DB :=
  let changed := (db.vendorMemory.filter (fun r => r.id = id)).length
  { db with
      vendorMemory := db.vendorMemory.map (fun r =>
        if r.id = id then { r with status := .disabled, disabledAt := some now } else r)
      auditEvents := db.auditEvents ++
        [{ ts := now, eventType := "ADMIN_ACTION", vendor := none, invoiceId := none
           entityType := some "vendor_memory", entityId := some id
           meta := some (.adminDisable changed) }] }

/-- Admin `resetVendorMemoryConfidence` (`src/admin/commands.ts`): sets
`confidence = to, rejectCount = 0` (note: it does not touch `status` or
`disabledAt`) and emits a `MEMORY_CONFIDENCE_RESET` audit event. -/
def resetVendorMemoryConfidence (db : DB) (id : String) (toConf : ℚ) (now : ℚ) : DB :=
  let changed := (db.vendorMemory.filter (fun r => r.id = id)).length
  { db with
      vendorMemory := db.vendorMemory.map (fun r =>
        if r.id = id then { r with confidence := toConf, rejectCount := 0 } else r)
      auditEvents := db.auditEvents ++
        [{ ts := now, eventType := "MEMORY_CONFIDENCE_RESET", vendor := none
           invoiceId := none, entityType := some "vendor_memory", entityId := some id
           meta := some (.adminReset toConf changed) }] }

/-! ### Correction-memory store (`src/db/correctionMemory.ts`) -/

/-- `getCorrectionMemories(db, vendor)`: filters `status = 'active'` only
when the schema has the column. -/
def getCorrectionMemories (db : DB) (vendor : String) : List CorrectionMemoryRow :=
  if db.corrHasStatus then
    db.correctionMemory.filter (fun r => r.vendor = vendor ∧ r.status = some .active)
  else
    db.correctionMemory.filter (fun r => r.vendor = vendor)

/-- `findCorrectionMemory(db, vendor, fieldPath, patternType, patternValue)`
(`LIMIT 1` without `ORDER BY`: first row in table order). -/
def findCorrectionMemory (db : DB) (vendor fieldPath patternType patternValue : String) :
    Option CorrectionMemoryRow :=
  if db.corrHasStatus then
    db.correctionMemory.find? (fun r =>
      r.vendor = vendor ∧ r.fieldPath = fieldPath ∧ r.patternType = patternType ∧
      r.patternValue = patternValue ∧ r.status = some .active)
  else
    db.correctionMemory.find? (fun r =>
      r.vendor = vendor ∧ r.fieldPath = fieldPath ∧ r.patternType = patternType ∧
      r.patternValue = patternValue)

/-- The argument record of `upsertCorrectionMemory` (a
`CorrectionMemoryRow` without `supportCount`/`rejectCount`). -/
structure CorrMemUpsert where
  id : String
  vendor : String
  fieldPath : String
  patternType : String
  patternValue : String
  recommendedValue : String
  confidence : ℚ
  lastUsedAt : Option ℚ
  createdAt : ℚ
  deriving DecidableEq

/-- `upsertCorrectionMemory(db, row)`: on an existing id, confidence is
boosted by `+0.1` capped at `0.95`, `supportCount` incremented and
`lastUsedAt` refreshed; otherwise a fresh row is inserted (with
`status='active'` when the schema has the column).  Returns the updated
store with the reported confidence (`{ id, confidence }`). -/
def upsertCorrectionMemory (db : DB) (row : CorrMemUpsert) : DB × ℚ :=
  match db.correctionMemory.find? (fun r => r.id = row.id) with
  | some existing =>
    let nextConfidence := min 0.95 (existing.confidence + 0.1)
    ({ db with correctionMemory := db.correctionMemory.map (fun r =>
        if r.id = row.id then
          { r with confidence := nextConfidence
                   supportCount := r.supportCount + 1
                   lastUsedAt := row.lastUsedAt }
        else r) }, nextConfidence)
  | none =>
    ({ db with correctionMemory := db.correctionMemory ++
        [{ id := row.id, vendor := row.vendor, fieldPath := row.fieldPath
           patternType := row.patternType, patternValue := row.patternValue
           recommendedValue := row.recommendedValue, confidence := row.confidence
           supportCount := 1, rejectCount := 0, lastUsedAt := row.lastUsedAt
           createdAt := row.createdAt
           status := if db.corrHasStatus then some .active else none }] },
      row.confidence)

/-- `markUsed(db, id)`: refreshes `lastUsedAt`.  (The source stamps the
wall clock `new Date()`; it is modelled by the logical instant of the
invocation.) -/
def markUsed (db : DB) (id : String) (now : ℚ) : DB :=
  { db with correctionMemory := db.correctionMemory.map (fun r =>
      if r.id = id then { r with lastUsedAt := some now } else r) }

/-- `markRejected(db, id)` from `src/db/correctionMemory.ts`: increments
`rejectCount`, sets `status='disabled'` when the incremented count reaches 2
(only on a schema with the `status` column), and refreshes `lastUsedAt`
(wall clock, modelled by the logical instant).  It does not change
`confidence`.  The TS function returns `undefined`. -/
def markRejected (db : DB) (id : String) (now : ℚ) : DB :=
  { db with correctionMemory := db.correctionMemory.map (fun r =>
      if r.id = id then
        { r with rejectCount := r.rejectCount + 1
                 status := if db.corrHasStatus then
                     (if 2 ≤ r.rejectCount + 1 then some .disabled else r.status)
                   else r.status
                 lastUsedAt := some now }
      else r) }

/-! ### Learning events (`src/db/learningEvents.ts`) — one row per learned
invoice id (the `learnedAt` column is written but never read). -/

/-- `hasLearned(db, invoiceId)`. -/
def hasLearned (db : DB) (invoiceId : String) : Bool :=
  db.learningEvents.contains invoiceId

/-- `markLearned(db, invoiceId)`: `INSERT OR IGNORE`. -/
def markLearned (db : DB) (invoiceId : String) : DB :=
  if db.learningEvents.contains invoiceId then db
  else { db with learningEvents := db.learningEvents ++ [invoiceId] }

/-! ### Resolution-memory store (`src/db/resolutionMemory.ts`).  The
migrated schema has both optional columns (`rejectCount`, `disabledAt`), so
`hasCol` reports them present. -/

/-- `defaultValue()`. -/
def defaultRValue : RValue :=
  { approved := 0, rejected := 0, lastDecision := none, lastInvoiceId := none }

/-- `getResolution(db, vendor, key)`: ignores disabled rows. -/
def getResolution (db : DB) (vendor key : String) : Option ResolutionRow :=
  db.resolutionMemory.find? (fun r =>
    r.vendor = vendor ∧ r.key = key ∧ r.disabledAt = none)

/-- `upsertResolution(db, vendor, key, patch)` as invoked by
`recordResolutionDecision` (which always supplies `value`, `confidence`,
`lastUsedAt` and `disabledAt`): `ON CONFLICT(vendor, key)` updates
`valueJson`, `confidence`, `lastUsedAt`, `disabledAt` and writes
`rejectCount` from the *non-disabled* existing row (`existing?.rejectCount
?? 0`), preserving `createdAt`; a fresh insert stamps `createdAt = now`. -/
def upsertResolution (db : DB) (vendor key : String) (value : RValue)
    (confidence : ℚ) (lastUsedAt : ℚ) (disabledAt : Option ℚ) (now : ℚ) : DB :=
  let existing := getResolution db vendor key
  let nextRejectCount := (existing.map (fun r => r.rejectCount)).getD 0
  if db.resolutionMemory.any (fun r => r.vendor = vendor ∧ r.key = key) then
    { db with resolutionMemory := db.resolutionMemory.map (fun r =>
        if r.vendor = vendor ∧ r.key = key then
          { r with value := value, confidence := confidence
                   lastUsedAt := some lastUsedAt, disabledAt := disabledAt
                   rejectCount := nextRejectCount }
        else r) }
  else
    { db with resolutionMemory := db.resolutionMemory ++
        [{ vendor := vendor, key := key, value := value, confidence := confidence
           rejectCount := nextRejectCount, lastUsedAt := some lastUsedAt
           disabledAt := disabledAt, createdAt := now }] }

/-- `recordResolutionDecision(db, {vendor, key, decision, invoiceId})`:
bumps the approve/reject tally, evolves the row confidence (`+0.05` capped
`0.95` on approval, `-0.1` floored `0.2` on rejection), increments
`rejectCount` on rejection, disables the row (capping confidence at `0.2`)
when a rejection brings it to `rejected ≥ 2` with zero approvals, and
upserts.  Returns the updated store with the reported `{value,
confidence}`. -/
def recordResolutionDecision (db : DB) (vendor key : String) (decision : RDecision)
    (invoiceId : String) (now : ℚ) : DB × (RValue × ℚ) :=
  let existingAny := db.resolutionMemory.find? (fun r => r.vendor = vendor ∧ r.key = key)
  let value0 := (existingAny.map (fun r => r.value)).getD defaultRValue
  let value : RValue :=
    { approved := value0.approved + (if decision = .approved then 1 else 0)
      rejected := value0.rejected + (if decision = .rejected then 1 else 0)
      lastDecision := some decision
      lastInvoiceId := some invoiceId }
  let conf0 := (existingAny.map (fun r => r.confidence)).getD 0.5
  let conf1 := if decision = .approved then min 0.95 (conf0 + 0.05) else conf0
  let conf2 := if decision = .rejected then max 0.2 (conf1 - 0.1) else conf1
  let nextRejectCount :=
    (existingAny.map (fun r => r.rejectCount)).getD 0 +
      (if decision = .rejected then 1 else 0)
  let disable :=
    decision = .rejected ∧ 2 ≤ value.rejected ∧ value.approved = 0
  let disabledAt : Option ℚ :=
    if disable then some now
    else (existingAny.bind (fun r => r.disabledAt))
  let conf3 := if disable then min conf2 0.2 else conf2
  let db1 := upsertResolution db vendor key value conf3 now disabledAt now
  let db2 := { db1 with resolutionMemory := db1.resolutionMemory.map (fun r =>
      if r.vendor = vendor ∧ r.key = key then { r with rejectCount := nextRejectCount }
      else r) }
  (db2, (value, conf3))

/-- `logAuditEvent(db, args)` (`src/db/auditEvents.ts`): append-only. -/
def logAuditEvent (db : DB) (e : AuditEvent) : DB :=
  { db with auditEvents := db.auditEvents ++ [e] }

/-- `find?` by id commutes with an id-preserving row map. -/
theorem find?_map_of_id_preserving (f : CorrectionMemoryRow → CorrectionMemoryRow)
    (hf : ∀ x, (f x).id = x.id) (id : String) :
    ∀ (l : List CorrectionMemoryRow) (r : CorrectionMemoryRow),
      l.find? (fun x => x.id = id) = some r →
      (l.map f).find? (fun x => x.id = id) = some (f r) := by
  intro l
  induction l with
  | nil => intro r hr; simp at hr
  | cons a t ih =>
    intro r hr
    by_cases ha : a.id = id
    · rw [List.find?_cons_of_pos _ (by simp [ha])] at hr
      injection hr with hr
      subst hr
      rw [List.map_cons, List.find?_cons_of_pos _ (by simp [hf, ha])]
    · rw [List.find?_cons_of_neg _ (by simp [ha])] at hr
      rw [List.map_cons, List.find?_cons_of_neg _ (by simp [hf, ha])]
      exact ih r hr

/-- **C8 (amended).** `markRejected` on a schema with the `status` column:
the targeted entry's `rejectCount` is incremented by one, its status becomes
`disabled` exactly when the incremented count reaches 2, `lastUsedAt` is
refreshed — and its stored confidence is left unchanged (the source applies
no confidence decrement). -/
theorem correction_rejection_behavior (db : DB) (hs : db.corrHasStatus = true)
    (id : String) (now : ℚ) (r : CorrectionMemoryRow)
    (hr : db.correctionMemory.find? (fun x => x.id = id) = some r) :
    ∃ r', (markRejected db id now).correctionMemory.find? (fun x => x.id = id) = some r' ∧
      r'.confidence = r.confidence ∧
      r'.rejectCount = r.rejectCount + 1 ∧
      r'.status = (if 2 ≤ r.rejectCount + 1 then some .disabled else r.status) ∧
      r'.lastUsedAt = some now := by
  have hpr : r.id = id := by
    have := List.find?_some hr
    simpa using this
  have hfind := find?_map_of_id_preserving
    (fun x => if x.id = id then
        { x with rejectCount := x.rejectCount + 1
                 status := if db.corrHasStatus then
                     (if 2 ≤ x.rejectCount + 1 then some .disabled else x.status)
                   else x.status
                 lastUsedAt := some now }
      else x)
    (by intro x; by_cases hx : x.id = id <;> simp [hx]) id db.correctionMemory r hr
  apply Exists.intro { r with rejectCount := r.rejectCount + 1, status := (if 2 ≤ r.rejectCount + 1 then some VStatus.disabled else r.status), lastUsedAt := some now }
  refine ⟨?_, rfl, rfl, rfl, rfl⟩
  simpa [markRejected, hpr, hs] using hfind

/-- A one-row correction-memory store (schema with `status`) used by the C8
counterexample. -/
def dbC8 : DB :=
  { emptyDB true with correctionMemory :=
      [{ id := "cm1", vendor := "Acme", fieldPath := "lineItems[].qty"
         patternType := "sku", patternValue := "S1", recommendedValue := "7"
         confidence := 9/10, supportCount := 1, rejectCount := 0
         lastUsedAt := none, createdAt := 0, status := some .active }] }

/-- **C8 counterexample.** Recording a rejection against an entry with
stored confidence `0.9` leaves its confidence at `0.9` (while incrementing
`rejectCount`): the claimed fixed-step confidence decrement (floored at
`0.2`) does not happen. -/
theorem correction_rejection_confidence_unchanged :
    (dbC8.correctionMemory.find? (fun x => x.id = "cm1")).map
        (fun x => (x.confidence, x.rejectCount)) = some (9/10, 0) ∧
    ((markRejected dbC8 "cm1" 5).correctionMemory.find? (fun x => x.id = "cm1")).map
        (fun x => (x.confidence, x.rejectCount)) = some (9/10, 1) := by
  constructor
  · simp [dbC8, emptyDB, List.find?]
  · simp [dbC8, emptyDB, markRejected, List.find?]

/-- **C8 witness.** The amended behaviour at a concrete entry: rejecting
`cm1` (rejectCount 0, confidence 0.9) yields rejectCount 1, unchanged
confidence, refreshed `lastUsedAt`, and — the count not yet having reached
2 — an unchanged status. -/
theorem correction_rejection_behavior_witness :
    dbC8.corrHasStatus = true ∧
    (dbC8.correctionMemory.find? (fun x => x.id = "cm1") =
      some { id := "cm1", vendor := "Acme", fieldPath := "lineItems[].qty"
             patternType := "sku", patternValue := "S1", recommendedValue := "7"
             confidence := 9/10, supportCount := 1, rejectCount := 0
             lastUsedAt := none, createdAt := 0, status := some .active }) ∧
    (∃ r', (markRejected dbC8 "cm1" 5).correctionMemory.find?
        (fun x => x.id = "cm1") = some r' ∧
      r'.confidence = (9/10 : ℚ) ∧
      r'.rejectCount = 0 + 1 ∧
      r'.status = (if 2 ≤ 0 + 1 then some VStatus.disabled else some VStatus.active) ∧
      r'.lastUsedAt = some 5) := by
  have hfind : dbC8.correctionMemory.find? (fun x => x.id = "cm1") =
      some { id := "cm1", vendor := "Acme", fieldPath := "lineItems[].qty"
             patternType := "sku", patternValue := "S1", recommendedValue := "7"
             confidence := 9/10, supportCount := 1, rejectCount := 0
             lastUsedAt := none, createdAt := 0, status := some .active } := by
    simp [dbC8, emptyDB, List.find?]
  exact ⟨rfl, hfind, correction_rejection_behavior dbC8 rfl "cm1" 5 _ hfind⟩

/-! ### Regex models for the hand-coded extractors of
`src/engine/runPipeline.ts`.  Each JS regular expression used by the engine
is implemented as a deterministic leftmost-match scanner with the same
semantics on the relevant character classes (`\d = [0-9]`, `\s` =
whitespace, `\w = [A-Za-z0-9_]`, `.` excludes newline); each scanner is
noted with the regex it implements. -/

/-- Consume a literal prefix case-insensitively (`lit` given lowercase). -/
def dropLitCI : List Char → List Char → Option (List Char)
  | [], l => some l
  | _ :: _, [] => none
  | a :: as, b :: bs => if a = b.toLower then dropLitCI as bs else none

/-- Consume `\s+` (at least one whitespace char, then greedily). -/
def wsPlus : List Char → Option (List Char)
  | [] => none
  | c :: t => if c.isWhitespace then some (t.dropWhile Char.isWhitespace) else none

/-- `/Leistungsdatum:\s*([0-9]{2})\.([0-9]{2})\.([0-9]{4})/` tried at one
position; returns the rearranged `yyyy-mm-dd`. -/
def leistTry (l : List Char) : Option String :=
  match dropLit "Leistungsdatum:".data l with
  | none => none
  | some r =>
    match r.dropWhile Char.isWhitespace with
    | d1 :: d2 :: c1 :: m1 :: m2 :: c2 :: y1 :: y2 :: y3 :: y4 :: _ =>
      if c1 = '.' ∧ c2 = '.' ∧ ([d1, d2, m1, m2, y1, y2, y3, y4].all Char.isDigit) then
        some (String.mk [y1, y2, y3, y4, '-', m1, m2, '-', d1, d2])
      else none
    | _ => none

/-- Leftmost scan for `leistTry`. -/
def scanLeist : List Char → Option String
  | [] => none
  | c :: t =>
    match leistTry (c :: t) with
    | some v => some v
    | none => scanLeist t

/-- `extractLeistungsdatum(rawText)` from `src/engine/runPipeline.ts`. -/
def extractLeistungsdatum (rawText : String) : Option String :=
  scanLeist rawText.data

/-- Exactly three consecutive uppercase letters (`[A-Z]{3}`). -/
def upper3 : List Char → Option (List Char × List Char)
  | a :: b :: c :: rest =>
    if a.isUpper ∧ b.isUpper ∧ c.isUpper then some ([a, b, c], rest) else none
  | _ => none

/-- A word boundary after the match (`\b`): end of input or a non-word
char. -/
def boundaryAfter : List Char → Bool
  | [] => true
  | c :: _ => !isWordChar c

/-- A word boundary before the current position given the previous char. -/
def boundaryBefore : Option Char → Bool
  | none => true
  | some p => !isWordChar p

/-- `/\bCurrency:\s*([A-Z]{3})\b/` tried at one position (boundary before
already checked by the scanner). -/
def cur1At (l : List Char) : Option String :=
  match dropLit "Currency:".data l with
  | none => none
  | some r =>
    match upper3 (r.dropWhile Char.isWhitespace) with
    | none => none
    | some (ccc, rest) => if boundaryAfter rest then some (String.mk ccc) else none

/-- Leftmost scan for `cur1At`, tracking the previous char for the leading
`\b`. -/
def scanCur1 (prev : Option Char) : List Char → Option String
  | [] => none
  | c :: t =>
    match (if boundaryBefore prev then cur1At (c :: t) else none) with
    | some v => some v
    | none => scanCur1 (some c) t

/-- `/\bTotal:\s*[\d,.]+\s*([A-Z]{3})\b/` tried at one position. -/
def cur3At (l : List Char) : Option String :=
  match dropLit "Total:".data l with
  | none => none
  | some r =>
    let r1 := r.dropWhile Char.isWhitespace
    let numRun := r1.takeWhile (fun c => c.isDigit ∨ c = ',' ∨ c = '.')
    if numRun.isEmpty then none
    else
      match upper3 ((r1.drop numRun.length).dropWhile Char.isWhitespace) with
      | none => none
      | some (ccc, rest) => if boundaryAfter rest then some (String.mk ccc) else none

/-- Leftmost scan for `cur3At`. -/
def scanCur3 (prev : Option Char) : List Char → Option String
  | [] => none
  | c :: t =>
    match (if boundaryBefore prev then cur3At (c :: t) else none) with
    | some v => some v
    | none => scanCur3 (some c) t

/-- `/\b([A-Z]{3})\b\s*$/m` tried at one position: three uppercase letters
at a word boundary followed by whitespace up to an end of line (`$` in
multiline mode matches before a `'\n'` or at the end of input; `\s*` may
consume up to that point). -/
def cur2At (l : List Char) : Option String :=
  match upper3 l with
  | none => none
  | some (ccc, rest) =>
    if boundaryAfter rest then
      let run := rest.takeWhile Char.isWhitespace
      if run.contains '\n' ∨ (rest.drop run.length).isEmpty then
        some (String.mk ccc)
      else none
    else none

/-- Leftmost scan for `cur2At`. -/
def scanCur2 (prev : Option Char) : List Char → Option String
  | [] => none
  | c :: t =>
    match (if boundaryBefore prev then cur2At (c :: t) else none) with
    | some v => some v
    | none => scanCur2 (some c) t

/-- `parseCurrency(rawText)` from `src/engine/runPipeline.ts`: the
`Currency:` label, then an amount-with-currency (`Total: ... EUR`), then a
bare three-letter code at an end of line — the last only accepted when it is
one of EUR/USD/GBP. -/
def parseCurrency (rawText : String) : Option String :=
  match scanCur1 none rawText.data with
  | some v => some v
  | none =>
    match scanCur3 none rawText.data with
    | some v => some v
    | none =>
      match scanCur2 none rawText.data with
      | some v => if v = "EUR" ∨ v = "USD" ∨ v = "GBP" then some v else none
      | none => none

/-- `/Total:\s*([0-9]+(?:[.,][0-9]{2})?)/i` tried at one position (on
lowercased text); returns the JS `Number` of the capture after
`.replace(",", ".")`. -/
def totalAt (l : List Char) : Option ℚ :=
  match dropLit "total:".data l with
  | none => none
  | some r =>
    let r1 := r.dropWhile Char.isWhitespace
    let intRun := r1.takeWhile Char.isDigit
    if intRun.isEmpty then none
    else
      let val : ℚ := (digitsToNat intRun : ℚ)
      match r1.drop intRun.length with
      | sep :: a :: b :: _ =>
        if (sep = '.' ∨ sep = ',') ∧ a.isDigit ∧ b.isDigit then
          some (val + (digitsToNat [a, b] : ℚ) / 100)
        else some val
      | _ => some val

/-- Leftmost scan for `totalAt`. -/
def scanTotal : List Char → Option ℚ
  | [] => none
  | c :: t =>
    match totalAt (c :: t) with
    | some v => some v
    | none => scanTotal t

/-- `extractTotalFromRawText(rawText)` from `src/engine/runPipeline.ts`. -/
def extractTotalFromRawText (rawText : String) : Option ℚ :=
  scanTotal (lowerStr rawText).data

/-- First alternative of the VAT-inclusive test: `MwSt\.\s*inkl\.`
(lowercased). -/
def vatTryA (l : List Char) : Bool :=
  match dropLit "mwst.".data l with
  | none => false
  | some r => (dropLit "inkl.".data (r.dropWhile Char.isWhitespace)).isSome

/-- Second alternative: `Prices\s+incl\.\s*VAT` (lowercased). -/
def vatTryB (l : List Char) : Bool :=
  (((dropLit "prices".data l).bind wsPlus).bind
    (fun r => dropLit "incl.".data r)).bind
      (fun r => dropLit "vat".data (r.dropWhile Char.isWhitespace)) |>.isSome

/-- Third alternative: `VAT\s+included` (lowercased). -/
def vatTryC (l : List Char) : Bool :=
  ((dropLit "vat".data l).bind wsPlus).bind
    (fun r => dropLit "included".data r) |>.isSome

/-- Leftmost scan over the three alternatives. -/
def vatScan : List Char → Bool
  | [] => false
  | c :: t => vatTryA (c :: t) || vatTryB (c :: t) || vatTryC (c :: t) || vatScan t

/-- `isVatInclusiveText(rawText)` from `src/engine/runPipeline.ts`:
`/MwSt\.\s*inkl\.|Prices\s+incl\.\s*VAT|VAT\s+included/i.test(rawText)`. -/
def isVatInclusiveText (rawText : String) : Bool :=
  vatScan (lowerStr rawText).data

/-- Tail of the Skonto regex at one position: `(\d+)\s*(days|tage)`
(lowercased input). -/
def skontoTailAt (l : List Char) : Option ℕ :=
  let ds := l.takeWhile Char.isDigit
  if ds.isEmpty then none
  else
    let r := (l.drop ds.length).dropWhile Char.isWhitespace
    if prefixOf "days".data r ∨ prefixOf "tage".data r then some (digitsToNat ds)
    else none

/-- The lazy `.*?` before the tail: advance one (non-newline) char at a
time, taking the earliest position where the tail matches. -/
def skontoTailScan : List Char → Option ℕ
  | [] => none
  | c :: t =>
    match skontoTailAt (c :: t) with
    | some v => some v
    | none => if c = '\n' then none else skontoTailScan t

/-- `/(\d+)%\s*Skonto.*?(\d+)\s*(days|tage)/i` tried at one position
(lowercased input). -/
def skontoAt (l : List Char) : Option (ℕ × ℕ) :=
  let ds := l.takeWhile Char.isDigit
  if ds.isEmpty then none
  else
    match l.drop ds.length with
    | '%' :: r =>
      match dropLit "skonto".data (r.dropWhile Char.isWhitespace) with
      | none => none
      | some r2 => (skontoTailScan r2).map (fun d => (digitsToNat ds, d))
    | _ => none

/-- Leftmost scan for `skontoAt`. -/
def skontoScan : List Char → Option (ℕ × ℕ)
  | [] => none
  | c :: t =>
    match skontoAt (c :: t) with
    | some v => some v
    | none => skontoScan t

/-- `extractSkonto(rawText)` from `src/engine/runPipeline.ts`: percent and
day count of an early-payment discount clause. -/
def extractSkonto (rawText : String) : Option (ℚ × ℚ) :=
  (skontoScan (lowerStr rawText).data).map (fun pd => ((pd.1 : ℚ), (pd.2 : ℚ)))

/-- `parseDateToIso(dateStr)` from `src/engine/runPipeline.ts`: accepts
`dd.mm.yyyy`, `dd-mm-yyyy` (both anchored, reordered to ISO) or an already
ISO `yyyy-mm-dd` string; anything else — including `null`/empty — is
`null`. -/
def parseDateToIso (dateStr : Option String) : Option String :=
  match dateStr with
  | none => none
  | some s =>
    if s = "" then none
    else
      match s.data with
      | [a, b, c1, d, e, c2, f, g, h, i] =>
        if ([a, b, d, e, f, g, h, i].all Char.isDigit) ∧ c1 = '.' ∧ c2 = '.' then
          some (String.mk [f, g, h, i, '-', d, e, '-', a, b])
        else if ([a, b, d, e, f, g, h, i].all Char.isDigit) ∧ c1 = '-' ∧ c2 = '-' then
          some (String.mk [f, g, h, i, '-', d, e, '-', a, b])
        else if ([a, b, c1, d].all Char.isDigit) ∧ e = '-' ∧
            ([c2, f].all Char.isDigit) ∧ g = '-' ∧ ([h, i].all Char.isDigit) then
          some s
        else none
      | _ => none

/-- Days since the civil epoch 1970-01-01 (Howard Hinnant's
`days_from_civil`); `new Date("yyyy-mm-dd").getTime()` is exactly
`86400000 ·` this value. -/
def civilDays (y m d : ℤ) : ℤ :=
  let y1 := y - (if m ≤ 2 then 1 else 0)
  let era := y1 / 400
  let yoe := y1 - era * 400
  let doy := (153 * (m + (if 2 < m then -3 else 9)) + 2) / 5 + d - 1
  let doe := yoe * 365 + yoe / 4 - yoe / 100 + doy
  era * 146097 + doe - 719468

/-- `new Date(iso).getTime()` at day granularity for the ISO dates the
engine produces; a non-ISO string is `NaN` (`none`). -/
def isoToDays (s : String) : Option ℤ :=
  match s.data with
  | [y1, y2, y3, y4, s1, m1, m2, s2, d1, d2] =>
    if ([y1, y2, y3, y4, m1, m2, d1, d2].all Char.isDigit) ∧ s1 = '-' ∧ s2 = '-' then
      some (civilDays (digitsToNat [y1, y2, y3, y4]) (digitsToNat [m1, m2])
        (digitsToNat [d1, d2]))
    else none
  | _ => none

/-- `daysBetween(aIso, bIso)` from `src/engine/runPipeline.ts`:
`Math.abs(Math.round((getTime a − getTime b) / 86400000))` — exact at day
granularity since both instants are UTC midnights; `NaN` (unparsable) is
`none`, and a `none` day-distance fails every `≤ window` comparison just as
`NaN` does. -/
def daysBetween (aIso bIso : String) : Option ℤ :=
  (isoToDays aIso).bind (fun da => (isoToDays bIso).map (fun db_ => |da - db_|))

/-- `/freight\s*&\s*co/i` tried at one position (lowercased input). -/
def freightAt (l : List Char) : Bool :=
  (((dropLit "freight".data l).map (·.dropWhile Char.isWhitespace)).bind
    (fun r =>
      match r with
      | '&' :: t => dropLit "co".data (t.dropWhile Char.isWhitespace)
      | _ => none)).isSome

/-- Leftmost scan for `freightAt`. -/
def freightScan : List Char → Bool
  | [] => false
  | c :: t => freightAt (c :: t) || freightScan t

/-- `isFreightVendor`: `/freight\s*&\s*co/i.test(vendor)`. -/
def isFreightVendor (vendor : String) : Bool :=
  freightScan (lowerStr vendor).data

/-- `/shipping|seefracht|transport/i.test(description ?? "")`. -/
def descIsFreight (description : String) : Bool :=
  let l := (lowerStr description).data
  hasSub l "shipping".data || hasSub l "seefracht".data || hasSub l "transport".data

/-- `/sku=([A-Z0-9\-]+)/i` tried at one position: the capture keeps the
original case. -/
def skuAt (l : List Char) : Option String :=
  match dropLitCI "sku=".data l with
  | none => none
  | some r =>
    let run := r.takeWhile (fun c => c.isAlpha ∨ c.isDigit ∨ c = '-')
    if run.isEmpty then none else some (String.mk run)

/-- Leftmost scan for `skuAt`. -/
def skuScan : List Char → Option String
  | [] => none
  | c :: t =>
    match skuAt (c :: t) with
    | some v => some v
    | none => skuScan t

/-- The SKU captured from a correction field path such as
`lineItems[sku=S1].qty` during Learn. -/
def extractSkuFromField (field : String) : Option String :=
  skuScan field.data

/-- JS `String(v)` on the loosely typed values that reach it in Learn
(`String(fix.to)`); quantity fixes carry integral numbers, rendered as by
JS.  (`String` of a plain object is the JS `"[object Object]"`.) -/
def jvalToString : JVal → String
  | .jnull => "null"
  | .str s => s
  | .num q => if q.den = 1 then toString q.num else toString q
  | .skonto _ _ => "[object Object]"

/-! ### Pipeline data types (`src/types/output.ts` and the `context` shape
of `src/engine/runPipeline.ts`) -/

/-- A loosely typed JS value in a correction's `from`/`to` slot (these may
carry decay-shaped reals, unlike the invoice-side `JVal`). -/
inductive CVal where
  | cnull
  | str (s : String)
  | num (x : ℝ)
  | skonto (percent days : ℚ)

/-- The free-text `reason` of a proposed correction, modelled structurally
(template literal constructors with their interpolated payloads). -/
inductive CorrReason where
  | foundLeistungsdatum (date : String)
  | onlyMatchingPo (daysWindow : ℤ) (skus : List String)
  | vatGrossFromText (expectedGross : ℝ)
  | vatGrossRecomputed
  | vatTaxRecomputed (expectedTax : ℝ)
  | dnQtyDiffers (dnQty qty : ℚ) (sku : String)
  | recoveredCurrency (cur : String)
  | currencyFallback
  | skontoDetected (percent days : ℚ)
  | skontoFallback
  | freightMemMapping
  | freightFixedMapping

/-- One proposed correction. -/
structure Correction where
  field : String
  fromVal : CVal
  toVal : CVal
  source : String
  confidence : ℝ
  reason : CorrReason

/-- The `note` string of `applyResolutionMemoryToConfidence`, modelled
structurally. -/
inductive RNote where
  | noHistory
  | history (approved rejected : ℕ) (base adjusted : ℝ)

/-- The free-text `details` of an audit-trail entry, modelled structurally
(one constructor per template literal in the source, with its interpolated
payloads). -/
inductive TrailMsg where
  | duplicateOf (id reason : String)
  | recalledVendorMems (n : ℕ) (vendor : String)
  | recalledCorrMems (n : ℕ) (vendor : String)
  | resolutionApplied (key : String) (note : RNote)
  | serviceMemSkipped (id : String)
  | poInference (usingMem : Bool) (po : String) (note : RNote)
  | poInferenceFailed
  | vatVerified (expectedGross expectedTax : ℝ)
  | corrMemSkipped (what id : String)
  | corrMemApplied (what id : String) (note : RNote)
  | proposedCount (n : ℕ)
  | decideMsg (msg : String)
  | resolutionRecorded (key : String) (decision : RDecision) (approved rejected : ℕ)
  | learnOutcome (decision : RDecision) (invoiceId : String)
  | skippedLearning (invoiceId : String)
  | noDecision

/-- One audit-trail entry of the pipeline output. -/
structure TrailEntry where
  step : String
  timestamp : ℚ
  details : TrailMsg

/-- One `reasoningParts` element (the output's `reasoning` is their
space-join, modelled as the list). -/
inductive RMsg where
  | duplicateDetected (reason id : String)
  | serviceMem
  | serviceHeuristic
  | poMem
  | poHeuristic
  | vatMemRecompute
  | vatHeuristicRecompute
  | vatMemVerified
  | vatVerifiedPlain
  | qtyMem (sku : String)
  | qtyHeuristic (sku : String)
  | currencyMem
  | currencyHeuristic
  | skontoMem
  | skontoHeuristic
  | freightCorrMem
  | freightVendorMem
  | freightHeuristic

/-- One `memoryUpdates` element of the pipeline output. -/
structure MemUpdate where
  type : String
  id : String
  confidence : ℚ
  note : Option String
  deriving DecidableEq

/-- The `AgentOutput` structure (`src/types/output.ts`). -/
structure AgentOutput where
  normalizedInvoice : Fields
  proposedCorrections : List Correction
  requiresHumanReview : Bool
  reasoning : List RMsg
  confidenceScore : ℝ
  memoryUpdates : List MemUpdate
  auditTrail : List TrailEntry

/-- A purchase-order line item of the reference data. -/
structure POItem where
  sku : Option String
  qty : Option ℚ
  deriving DecidableEq

/-- A reference purchase order. -/
structure PO where
  vendor : String
  poNumber : String
  date : String
  lineItems : List POItem
  deriving DecidableEq

/-- A delivery-note line item of the reference data. -/
structure DNItem where
  sku : Option String
  qtyDelivered : Option ℚ
  deriving DecidableEq

/-- A reference delivery note. -/
structure DeliveryNote where
  vendor : String
  poNumber : Option String
  lineItems : List DNItem
  deriving DecidableEq

/-- The reference data of the pipeline context. -/
structure Reference where
  purchaseOrders : List PO
  deliveryNotes : List DeliveryNote
  deriving DecidableEq

/-- One field correction of a human-decision record. -/
structure DecisionFix where
  field : String
  toVal : JVal
  deriving DecidableEq

/-- One human-decision record for the invoice
(`context.correctionsForInvoice`). -/
structure DecisionRow where
  finalDecision : String
  corrections : List DecisionFix
  deriving DecidableEq

/-- The pipeline invocation context. -/
structure Ctx where
  vendor : String
  extracted : Invoice
  reference : Reference
  correctionsForInvoice : List DecisionRow
  deriving DecidableEq

/-! ### Pipeline helpers (`src/engine/runPipeline.ts`) -/

/-- `round2(n)`: `Math.round(n * 100) / 100` (JS `Math.round` is
`⌊x + 1/2⌋`, which is Mathlib's `round`). -/
noncomputable def round2 (n : ℝ) : ℝ := ((round (n * 100) : ℤ) : ℝ) / 100

/-- `isMissing(v)`: `null`/`undefined`/empty string. -/
def isMissingStr : Option String → Bool
  | none => true
  | some s => s = ""

/-- `hasCriticalMissingFields(normalized, proposed)` from
`src/engine/runPipeline.ts`.  The numeric totals are missing when
`Number(...)` is not finite, i.e. when the field is absent. -/
noncomputable def hasCriticalMissingFields (normalized : Fields)
    (proposed : List Correction) : Bool :=
  let missingCurrency := isMissingStr normalized.currency
  let missingInvoiceNumber := isMissingStr normalized.invoiceNumber
  let missingInvoiceDate := isMissingStr normalized.invoiceDate
  let missingNet := normalized.netTotal.isNone
  let missingGross := normalized.grossTotal.isNone
  let missingPo := isMissingStr normalized.poNumber
  let hasPoSuggestionHigh := proposed.any (fun c =>
    decide (c.field = "poNumber" ∧ (0.75 : ℝ) ≤ c.confidence))
  let missingPoIsCritical := missingPo && !hasPoSuggestionHigh
  missingInvoiceNumber || missingInvoiceDate || missingCurrency ||
    missingNet || missingGross || missingPoIsCritical

/-- `applyResolutionMemoryToConfidence({db, vendor, key, base})` from
`src/engine/runPipeline.ts`: ≥2 approvals with no rejection boost the base
by `+0.15` (cap 0.95); ≥1 rejection penalizes it by `−0.2` (floor 0.2). -/
noncomputable def applyResolutionMemoryToConfidence (db : DB) (vendor key : String)
    (base : ℝ) : ℝ × RNote :=
  match getResolution db vendor key with
  | none => (base, .noHistory)
  | some res =>
    let a := res.value.approved
    let r := res.value.rejected
    let adjusted₁ := if 2 ≤ a ∧ r = 0 then min 0.95 (base + 0.15) else base
    let adjusted₂ := if 1 ≤ r then max 0.2 (base - 0.2) else adjusted₁
    (adjusted₂, .history a r base adjusted₂)

/-- `isSuspectCorrectionMemory({mem, resolution, now})` from
`src/engine/runPipeline.ts`: absent, non-active, twice-rejected,
low-raw-confidence (`0 < c < 0.65`), strategy-rejected (≥2), or decayed
below the 0.65 floor.  `mem.lastUsedAt ?? mem.createdAt ?? null` uses the
non-null `createdAt` column as fallback. -/
noncomputable def isSuspectCorrectionMemory (mem : Option CorrectionMemoryRow)
    (resolution : Option ResolutionRow) (now : ℚ) : Bool :=
  match mem with
  | none => true
  | some m =>
    if m.status.any (fun s => decide (s ≠ VStatus.active)) then true
    else if 2 ≤ m.rejectCount then true
    else if (0 : ℚ) < m.confidence ∧ m.confidence < 0.65 then true
    else if 2 ≤ ((resolution.map (fun r => r.value.rejected)).getD 0) then true
    else
      let ageDays := daysSince (some (m.lastUsedAt.getD m.createdAt)) now
      decide (decayedConfidence (m.confidence : ℝ) ageDays < 0.65)

/-- `getInvoiceSkus(extracted)`: the truthy SKUs of the line items. -/
def getInvoiceSkus (extracted : Invoice) : List String :=
  extracted.fields.lineItems.filterMap (fun li =>
    match li.sku with
    | some s => if s = "" then none else some s
    | none => none)

/-- `suggestPoNumber(context, daysWindow)` from `src/engine/runPipeline.ts`:
the unique vendor purchase order within the day window sharing a SKU;
returns the PO number and the invoice SKUs (interpolated into the reason). -/
def suggestPoNumber (context : Ctx) (daysWindow : ℤ) : Option (String × List String) :=
  match parseDateToIso context.extracted.fields.invoiceDate with
  | none => none
  | some invoiceDateIso =>
    let skus := getInvoiceSkus context.extracted
    if skus.isEmpty then none
    else
      let candidates := ((context.reference.purchaseOrders.filter
          (fun po => po.vendor = context.vendor)).filter
          (fun po => match daysBetween invoiceDateIso po.date with
            | some k => decide (k ≤ daysWindow)
            | none => false)).filter
          (fun po => skus.any (fun s => (po.lineItems.map (fun li => li.sku)).contains (some s)))
      match candidates with
      | [c] => some (c.poNumber, skus)
      | _ => none

/-- The delivery-note walk of `findMatchingDeliveryQty`: the first note
whose line items contain the SKU with a finite delivered quantity. -/
def findQtyInNotes : List DeliveryNote → String → Option ℚ
  | [], _ => none
  | dn :: rest, sku =>
    match dn.lineItems.find? (fun x => x.sku = some sku) with
    | some li =>
      match li.qtyDelivered with
      | some q => some q
      | none => findQtyInNotes rest sku
    | none => findQtyInNotes rest sku

/-- `findMatchingDeliveryQty(context, sku)` from `src/engine/runPipeline.ts`
(`!invoicePo || dn.poNumber === invoicePo`: a falsy invoice PO keeps every
note of the vendor). -/
def findMatchingDeliveryQty (context : Ctx) (sku : String) : Option ℚ :=
  let invoicePo := context.extracted.fields.poNumber
  let dns := (context.reference.deliveryNotes.filter
      (fun dn => dn.vendor = context.vendor)).filter
      (fun dn => match invoicePo with
        | none => true
        | some p => if p = "" then true else dn.poNumber = some p)
  findQtyInNotes dns sku

/-- `Set#add` (insertion-ordered, deduplicating). -/
def addKey (keys : List String) (k : String) : List String :=
  if keys.contains k then keys else keys ++ [k]

/-- `Math.min(...proposedCorrections.map(c => Number(c.confidence ?? 0)))`
for a nonempty list. -/
noncomputable def minConf : List Correction → ℝ
  | [] => 0
  | c :: cs => cs.foldl (fun m x => min m x.confidence) c.confidence

/-- JS `toUpperCase` (ASCII). -/
def upperStr (s : String) : String := ⟨s.data.map Char.toUpper⟩

/-- The mutable state threaded through the Apply phase of `runPipeline`:
the store plus the accumulator variables declared before the heuristic
catalogue. -/
structure AState where
  db : DB
  corrections : List Correction
  score : ℝ
  usedKeys : List String
  usedIds : List String
  trail : List TrailEntry
  reasons : List RMsg

/-- The service-date heuristic of `runPipeline` (vendor-label pattern
`Leistungsdatum`), including the skipped-memory audit branch. -/
noncomputable def serviceStep (ctx : Ctx) (now : ℚ) (vms : List VendorMemoryRow)
    (s : AState) : AState :=
  let rawText := ctx.extracted.rawText.getD ""
  let serviceMem := vms.find? (fun m =>
    m.kind = "serviceDate_from_label" ∧ m.pattern = "Leistungsdatum")
  let canUse := canApplyVendorMem serviceMem now
  match extractLeistungsdatum rawText, ctx.extracted.fields.serviceDate with
  | some date, none =>
    let resKey := "serviceDate_from_leistungsdatum"
    let base : ℝ := if canUse then 0.85 else 0.55
    let baseAfterDecay :=
      if canUse then decayedConfidence base (daysSince (serviceMem.bind (fun m => m.lastUsedAt)) now)
      else base
    let shaped := applyResolutionMemoryToConfidence s.db ctx.vendor resKey baseAfterDecay
    { s with
        usedKeys := addKey s.usedKeys resKey
        trail := s.trail ++ [⟨"apply", now, .resolutionApplied resKey shaped.2⟩]
        corrections := s.corrections ++
          [{ field := "serviceDate", fromVal := .cnull, toVal := .str date
             source := if canUse then "vendor_memory" else "rawText_heuristic"
             confidence := shaped.1, reason := .foundLeistungsdatum date }]
        reasons := s.reasons ++ [if canUse then .serviceMem else .serviceHeuristic]
        score := max s.score shaped.1 }
  | _, _ =>
    match serviceMem with
    | some m =>
      if canUse then s
      else { s with trail := s.trail ++ [⟨"apply", now, .serviceMemSkipped m.id⟩] }
    | none => s

/-- The purchase-order inference heuristic of `runPipeline` (unique SKU +
30-day-window match), including the failed-inference audit branch. -/
noncomputable def poStep (ctx : Ctx) (now : ℚ) (vms : List VendorMemoryRow)
    (s : AState) : AState :=
  let poMem := vms.find? (fun m =>
    m.kind = "po_match_strategy" ∧ m.pattern = "sku_and_date_window")
  let canUse := canApplyVendorMem poMem now
  if ctx.extracted.fields.poNumber = none then
    match suggestPoNumber ctx 30 with
    | some (po, skus) =>
      let resKey := "po_infer_sku_date_window"
      let base : ℝ := if canUse then 0.88 else 0.80
      let baseAfterDecay :=
        if canUse then decayedConfidence base (daysSince (poMem.bind (fun m => m.lastUsedAt)) now)
        else base
      let shaped := applyResolutionMemoryToConfidence s.db ctx.vendor resKey baseAfterDecay
      { s with
          usedKeys := addKey s.usedKeys resKey
          trail := s.trail ++ [⟨"apply", now, .poInference canUse po shaped.2⟩]
          corrections := s.corrections ++
            [{ field := "poNumber", fromVal := .cnull, toVal := .str po
               source := if canUse then "vendor_memory" else "reference_heuristic"
               confidence := shaped.1, reason := .onlyMatchingPo 30 skus }]
          reasons := s.reasons ++ [if canUse then .poMem else .poHeuristic]
          score := max s.score shaped.1 }
    | none =>
      { s with trail := s.trail ++ [⟨"apply", now, .poInferenceFailed⟩] }
  else s

/-- The VAT-inclusive totals heuristic of `runPipeline`: on inclusive-
pricing language, recompute the expected gross/tax (preferring a raw-text
total) and propose corrections only where they differ by more than 0.01;
when the totals check out, only the running confidence is raised (capped at
0.85) with a verification audit entry — no correction is proposed.  The
resolution-memory audit entry and the used-key registration happen before
the finiteness guard, exactly as in the source. -/
noncomputable def vatStep (ctx : Ctx) (now : ℚ) (vms : List VendorMemoryRow)
    (s : AState) : AState :=
  let rawText := ctx.extracted.rawText.getD ""
  let vatMem := vms.find? (fun m =>
    m.kind = "vat_inclusive_pricing" ∧ m.pattern = "mwst_inkl")
  let canUse := canApplyVendorMem vatMem now
  if isVatInclusiveText rawText then
    let resKey := "vat_inclusive_recompute_totals"
    let base : ℝ := if canUse then 0.85 else 0.6
    let baseAfterDecay :=
      if canUse then decayedConfidence base (daysSince (vatMem.bind (fun m => m.lastUsedAt)) now)
      else base
    let shaped := applyResolutionMemoryToConfidence s.db ctx.vendor resKey baseAfterDecay
    let s : AState := { s with
      usedKeys := addKey s.usedKeys resKey
      trail := s.trail ++ [⟨"apply", now, .resolutionApplied resKey shaped.2⟩] }
    match ctx.extracted.fields.netTotal, ctx.extracted.fields.grossTotal,
        ctx.extracted.fields.taxTotal with
    | some net, some currentGross, some currentTax =>
      let rate := ctx.extracted.fields.taxRate.getD (19/100)
      let grossFromText := extractTotalFromRawText rawText
      let expectedGross : ℝ :=
        match grossFromText with
        | some g => round2 (g : ℝ)
        | none => round2 ((net : ℝ) * (1 + (rate : ℝ)))
      let expectedTax := round2 (expectedGross - (net : ℝ))
      let pushGross : List Correction :=
        if 0.01 < |(currentGross : ℝ) - expectedGross| then
          [{ field := "grossTotal", fromVal := .num (currentGross : ℝ)
             toVal := .num expectedGross
             source := if canUse then "vendor_memory" else "rawText_heuristic"
             confidence := shaped.1
             reason := match grossFromText with
               | some _ => .vatGrossFromText expectedGross
               | none => .vatGrossRecomputed }]
        else []
      let pushTax : List Correction :=
        if 0.01 < |(currentTax : ℝ) - expectedTax| then
          [{ field := "taxTotal", fromVal := .num (currentTax : ℝ)
             toVal := .num expectedTax
             source := if canUse then "vendor_memory" else "rawText_heuristic"
             confidence := shaped.1, reason := .vatTaxRecomputed expectedTax }]
        else []
      if (pushGross ++ pushTax).isEmpty then
        { s with
            trail := s.trail ++ [⟨"apply", now, .vatVerified expectedGross expectedTax⟩]
            reasons := s.reasons ++ [if canUse then .vatMemVerified else .vatVerifiedPlain]
            score := max s.score (min 0.85 shaped.1) }
      else
        { s with
            corrections := s.corrections ++ pushGross ++ pushTax
            reasons := s.reasons ++
              [if canUse then .vatMemRecompute else .vatHeuristicRecompute]
            score := max s.score shaped.1 }
    | _, _, _ => s
  else s

/-- One line item of the quantity-reconciliation loop of `runPipeline`:
compare the invoice quantity against the matching delivery-note quantity,
preferring a trusted correction-memory entry for the base confidence and
marking it used. -/
noncomputable def qtyItemStep (ctx : Ctx) (now : ℚ) (s : AState) (li : LineItem) :
    AState :=
  match li.sku, li.qty with
  | some sku, some qty =>
    if sku = "" then s
    else
      match findMatchingDeliveryQty ctx sku with
      | none => s
      | some dnQty =>
        if dnQty = qty then s
        else
          let resKey := "qty_to_delivery_note"
          let res := getResolution s.db ctx.vendor resKey
          let foundMem := findCorrectionMemory s.db ctx.vendor "lineItems[].qty" "sku" sku
          let canUseMem := foundMem.isSome && !(isSuspectCorrectionMemory foundMem res now)
          let s : AState := { s with usedKeys := addKey s.usedKeys resKey }
          let s : AState :=
            match foundMem with
            | some m =>
              if canUseMem then s
              else { s with trail := s.trail ++ [⟨"apply", now, .corrMemSkipped "qty" m.id⟩] }
            | none => s
          let base : ℝ :=
            if canUseMem then max 0.75 (((foundMem.map (fun m => m.confidence)).getD 0.75 : ℚ) : ℝ)
            else 0.6
          let baseAfterDecay :=
            if canUseMem then
              decayedConfidence base
                (daysSince (foundMem.map (fun m => m.lastUsedAt.getD m.createdAt)) now)
            else base
          let shaped := applyResolutionMemoryToConfidence s.db ctx.vendor resKey baseAfterDecay
          let s : AState := { s with
            trail := s.trail ++ [⟨"apply", now, .resolutionApplied resKey shaped.2⟩]
            corrections := s.corrections ++
              [{ field := "lineItems[sku=" ++ sku ++ "].qty"
                 fromVal := .num (qty : ℝ), toVal := .num (dnQty : ℝ)
                 source := if canUseMem then "correction_memory" else "reference_heuristic"
                 confidence := shaped.1, reason := .dnQtyDiffers dnQty qty sku }] }
          let s : AState :=
            match foundMem with
            | some m =>
              if canUseMem then
                { s with db := markUsed s.db m.id now
                         usedIds := addKey s.usedIds m.id
                         reasons := s.reasons ++ [.qtyMem sku] }
              else { s with reasons := s.reasons ++ [.qtyHeuristic sku] }
            | none => { s with reasons := s.reasons ++ [.qtyHeuristic sku] }
          { s with score := max s.score shaped.1 }
  | _, _ => s

/-- The quantity-reconciliation loop over all line items. -/
noncomputable def qtyStep (ctx : Ctx) (now : ℚ) (s : AState) : AState :=
  ctx.extracted.fields.lineItems.foldl (qtyItemStep ctx now) s

/-- The currency-recovery heuristic of `runPipeline`: parse the raw text,
falling back to the vendor-default correction-memory entry. -/
noncomputable def currencyStep (ctx : Ctx) (now : ℚ) (vms : List VendorMemoryRow)
    (s : AState) : AState :=
  let rawText := ctx.extracted.rawText.getD ""
  let currencyMem := vms.find? (fun m => m.kind = "currency_from_rawText")
  let canUse := canApplyVendorMem currencyMem now
  if ctx.extracted.fields.currency = none then
    match parseCurrency rawText with
    | some cur =>
      let resKey := "currency_from_rawText"
      let base : ℝ := if canUse then 0.85 else 0.7
      let baseAfterDecay :=
        if canUse then
          decayedConfidence base (daysSince (currencyMem.bind (fun m => m.lastUsedAt)) now)
        else base
      let shaped := applyResolutionMemoryToConfidence s.db ctx.vendor resKey baseAfterDecay
      { s with
          usedKeys := addKey s.usedKeys resKey
          trail := s.trail ++ [⟨"apply", now, .resolutionApplied resKey shaped.2⟩]
          corrections := s.corrections ++
            [{ field := "currency", fromVal := .cnull, toVal := .str cur
               source := if canUse then "vendor_memory" else "rawText_heuristic"
               confidence := shaped.1, reason := .recoveredCurrency cur }]
          reasons := s.reasons ++ [if canUse then .currencyMem else .currencyHeuristic]
          score := max s.score shaped.1 }
    | none =>
      let resKey := "currency_from_rawText"
      let s : AState := { s with usedKeys := addKey s.usedKeys resKey }
      let res := getResolution s.db ctx.vendor resKey
      let mem := findCorrectionMemory s.db ctx.vendor "currency" "vendor" "default"
      let canUseMem := mem.isSome && !(isSuspectCorrectionMemory mem res now)
      let s : AState :=
        match mem with
        | some m =>
          if canUseMem then s
          else { s with trail := s.trail ++ [⟨"apply", now, .corrMemSkipped "currency" m.id⟩] }
        | none => s
      match mem with
      | some m =>
        if canUseMem then
          let base : ℝ := max 0.7 ((m.confidence : ℚ) : ℝ)
          let baseAfterDecay :=
            decayedConfidence base (daysSince (some (m.lastUsedAt.getD m.createdAt)) now)
          let shaped := applyResolutionMemoryToConfidence s.db ctx.vendor resKey baseAfterDecay
          { s with
              corrections := s.corrections ++
                [{ field := "currency", fromVal := .cnull
                   toVal := .str m.recommendedValue, source := "correction_memory"
                   confidence := shaped.1, reason := .currencyFallback }]
              db := markUsed s.db m.id now
              usedIds := addKey s.usedIds m.id
              trail := s.trail ++ [⟨"apply", now, .corrMemApplied "currency" m.id shaped.2⟩]
              score := max s.score shaped.1 }
        else s
      | none => s
  else s

/-- The vendor-specific Skonto (early-payment discount) extraction of
`runPipeline`, with correction-memory fallback (the JSON re-hydration of the
opaque stored value is passed through as the stored string). -/
noncomputable def skontoPart (ctx : Ctx) (now : ℚ) (vms : List VendorMemoryRow)
    (s : AState) : AState :=
  let rawText := ctx.extracted.rawText.getD ""
  if ctx.extracted.fields.discountTerms = none then
    match extractSkonto rawText with
    | some (percent, days) =>
      let resKey := "skonto_terms_extraction"
      let skontoMem := vms.find? (fun m => m.kind = "skonto_terms")
      let canUse := canApplyVendorMem skontoMem now
      let base : ℝ := if canUse then 0.85 else 0.6
      let baseAfterDecay :=
        if canUse then
          decayedConfidence base (daysSince (skontoMem.bind (fun m => m.lastUsedAt)) now)
        else base
      let shaped := applyResolutionMemoryToConfidence s.db ctx.vendor resKey baseAfterDecay
      { s with
          usedKeys := addKey s.usedKeys resKey
          trail := s.trail ++ [⟨"apply", now, .resolutionApplied resKey shaped.2⟩]
          corrections := s.corrections ++
            [{ field := "discountTerms", fromVal := .cnull
               toVal := .skonto percent days
               source := if canUse then "vendor_memory" else "rawText_heuristic"
               confidence := shaped.1, reason := .skontoDetected percent days }]
          reasons := s.reasons ++ [if canUse then .skontoMem else .skontoHeuristic]
          score := max s.score shaped.1 }
    | none =>
      let resKey := "skonto_terms_extraction"
      let s : AState := { s with usedKeys := addKey s.usedKeys resKey }
      let res := getResolution s.db ctx.vendor resKey
      let mem := findCorrectionMemory s.db ctx.vendor "discountTerms" "vendor" "default"
      let canUseMem := mem.isSome && !(isSuspectCorrectionMemory mem res now)
      let s : AState :=
        match mem with
        | some m =>
          if canUseMem then s
          else
            { s with trail := s.trail ++
                [⟨"apply", now, .corrMemSkipped "discountTerms" m.id⟩] }
        | none => s
      match mem with
      | some m =>
        if canUseMem then
          let s : AState := { s with usedKeys := addKey s.usedKeys resKey }
          let base : ℝ := max 0.7 ((m.confidence : ℚ) : ℝ)
          let baseAfterDecay :=
            decayedConfidence base (daysSince (some (m.lastUsedAt.getD m.createdAt)) now)
          let shaped := applyResolutionMemoryToConfidence s.db ctx.vendor resKey baseAfterDecay
          { s with
              corrections := s.corrections ++
                [{ field := "discountTerms", fromVal := .cnull
                   toVal := .str m.recommendedValue, source := "correction_memory"
                   confidence := shaped.1, reason := .skontoFallback }]
              db := markUsed s.db m.id now
              usedIds := addKey s.usedIds m.id
              trail := s.trail ++
                [⟨"apply", now, .corrMemApplied "discountTerms" m.id shaped.2⟩]
              score := max s.score shaped.1 }
        else s
      | none => s
  else s

/-- The freight-SKU inference of `runPipeline`: a freight-like line item
lacking a SKU gets the learned correction-memory SKU when trusted, else the
fixed `FREIGHT` mapping. -/
noncomputable def freightItemPart (ctx : Ctx) (now : ℚ) (vms : List VendorMemoryRow)
    (s : AState) : AState :=
  let freightItem := ctx.extracted.fields.lineItems.find? (fun li =>
    li.sku = none ∧ descIsFreight (li.description.getD "") = true)
  match freightItem with
  | none => s
  | some _ =>
    let resKey := "freight_sku_mapping"
    let s : AState := { s with usedKeys := addKey s.usedKeys resKey }
    let res := getResolution s.db ctx.vendor resKey
    let mem := findCorrectionMemory s.db ctx.vendor "lineItems[].sku" "vendor"
      "freight_desc_missing_sku"
    let canUseMem := mem.isSome && !(isSuspectCorrectionMemory mem res now)
    let skuVendorMem := vms.find? (fun m =>
      m.kind = "sku_mapping" ∧ m.pattern = "FREIGHT")
    let canUseSkuVendorMem := canApplyVendorMem skuVendorMem now
    let pickedSku := match mem with
      | some m => if canUseMem then m.recommendedValue else "FREIGHT"
      | none => "FREIGHT"
    let base : ℝ :=
      if canUseMem then max 0.7 (((mem.map (fun m => m.confidence)).getD 0.7 : ℚ) : ℝ)
      else if canUseSkuVendorMem then 0.85
      else 0.6
    let baseAfterDecay :=
      if canUseMem then
        decayedConfidence base
          (daysSince (mem.map (fun m => m.lastUsedAt.getD m.createdAt)) now)
      else if canUseSkuVendorMem then
        decayedConfidence base (daysSince (skuVendorMem.bind (fun m => m.lastUsedAt)) now)
      else base
    let shaped := applyResolutionMemoryToConfidence s.db ctx.vendor resKey baseAfterDecay
    let s : AState := { s with
      trail := s.trail ++ [⟨"apply", now, .resolutionApplied resKey shaped.2⟩]
      corrections := s.corrections ++
        [{ field := "lineItems[].sku", fromVal := .cnull, toVal := .str pickedSku
           source := if canUseMem then "correction_memory"
             else if canUseSkuVendorMem then "vendor_memory" else "rawText_heuristic"
           confidence := shaped.1
           reason := if canUseMem then .freightMemMapping else .freightFixedMapping }] }
    let s : AState :=
      match mem with
      | some m =>
        if canUseMem then
          { s with db := markUsed s.db m.id now, usedIds := addKey s.usedIds m.id }
        else s
      | none => s
    { s with
        reasons := s.reasons ++
          [if canUseMem then .freightCorrMem
           else if canUseSkuVendorMem then .freightVendorMem else .freightHeuristic]
        score := max s.score shaped.1 }

/-- The freight-vendor block of `runPipeline` (Skonto extraction plus
freight-SKU inference), gated on the vendor-name pattern. -/
noncomputable def freightStep (ctx : Ctx) (now : ℚ) (vms : List VendorMemoryRow)
    (s : AState) : AState :=
  if isFreightVendor ctx.vendor then
    freightItemPart ctx now vms (skontoPart ctx now vms s)
  else s

/-! ### Learn phase (`src/engine/runPipeline.ts`, after the decide audit
entry) -/

/-- One approval-driven vendor-memory upsert of the Learn phase: id
`vendor::kind::pattern`, confidence `(existing ?? 0.6) + 0.1` capped at
0.95, incremented support count, preserved reject count, status forced
`active`.  `existing` is looked up in the recall-time `vendorMemsAll`
snapshot, exactly as in the source. -/
def vendorLearnUpsert (db : DB) (vms : List VendorMemoryRow)
    (vendor kind pattern : String) (now : ℚ) (note : Option String) :
    DB × MemUpdate :=
  let id := vendor ++ "::" ++ kind ++ "::" ++ pattern
  let existing := vms.find? (fun m => m.id = id)
  let nextConfidence := min 0.95 (((existing.map (fun m => m.confidence)).getD 0.6) + 0.1)
  (upsertVendorMemory db
    { id := id, vendor := vendor, kind := kind, pattern := pattern
      confidence := nextConfidence
      supportCount := ((existing.map (fun m => m.supportCount)).getD 0) + 1
      rejectCount := (existing.map (fun m => m.rejectCount)).getD 0
      lastUsedAt := some now, status := .active },
   { type := "vendor_memory_upsert", id := id, confidence := nextConfidence
     note := note })

/-- One quantity-style correction-memory upsert of the Learn phase (keyed
by the SKU captured from the corrected field path). -/
def qtyLearnStep (vendor : String) (now : ℚ) (acc : DB × List MemUpdate)
    (fix : DecisionFix) : DB × List MemUpdate :=
  match extractSkuFromField fix.field with
  | none => acc
  | some sku =>
    let id := vendor ++ "::lineItems[].qty::sku::" ++ sku
    let r := upsertCorrectionMemory acc.1
      { id := id, vendor := vendor, fieldPath := "lineItems[].qty"
        patternType := "sku", patternValue := sku
        recommendedValue := jvalToString fix.toVal, confidence := 0.7
        lastUsedAt := some now, createdAt := now }
    (r.1, acc.2 ++ [{ type := "correction_memory_upsert", id := id
                      confidence := r.2, note := none }])

/-- One exercised resolution key of the Learn phase: record the decision,
log the audit event, push the learn trail entry. -/
def resolutionLearnStep (vendor invoiceId : String) (decision : RDecision)
    (now : ℚ) (acc : DB × List TrailEntry) (key : String) : DB × List TrailEntry :=
  let r := recordResolutionDecision acc.1 vendor key decision invoiceId now
  let db2 := logAuditEvent r.1
    { ts := now
      eventType := if decision = .approved then "RESOLUTION_APPROVED"
        else "RESOLUTION_REJECTED"
      vendor := some vendor, invoiceId := some invoiceId
      entityType := none, entityId := none
      meta := some (.resolution key r.2.1.approved r.2.1.rejected
        r.2.1.lastDecision r.2.1.lastInvoiceId) }
  (db2, acc.2 ++ [⟨"learn", now, .resolutionRecorded key decision
    r.2.1.approved r.2.1.rejected⟩])

/-- The non-crashing tail of the Learn phase for a run with a human
verdict: the approval-driven upserts, the resolution loop over every
exercised key, `markLearned`, and the final learn audit event. -/
def learnCore (db : DB) (ctx : Ctx) (now : ℚ) (usedKeys : List String)
    (vms : List VendorMemoryRow) (decisionRow : DecisionRow) (decision : RDecision) :
    DB × Option (List TrailEntry × List MemUpdate) :=
  let invoiceId := ctx.extracted.invoiceId
  let vendor := ctx.vendor
  let rawText := ctx.extracted.rawText.getD ""
  let afterApproved : DB × List MemUpdate :=
          if decision = .approved then
            let acc0 : DB × List MemUpdate := (db, [])
            let acc1 :=
              match decisionRow.corrections.find? (fun c => c.field = "serviceDate") with
              | some _ =>
                let r := vendorLearnUpsert acc0.1 vms vendor "serviceDate_from_label"
                  "Leistungsdatum" now none
                (r.1, acc0.2 ++ [r.2])
              | none => acc0
            let acc2 :=
              match decisionRow.corrections.find? (fun c => c.field = "poNumber") with
              | some _ =>
                let r := vendorLearnUpsert acc1.1 vms vendor "po_match_strategy"
                  "sku_and_date_window" now none
                (r.1, acc1.2 ++ [r.2])
              | none => acc1
            let touchesTotals := decisionRow.corrections.any (fun c =>
              c.field = "taxTotal" ∨ c.field = "grossTotal")
            let acc3 :=
              if touchesTotals && isVatInclusiveText rawText then
                let r := vendorLearnUpsert acc2.1 vms vendor "vat_inclusive_pricing"
                  "mwst_inkl" now (some "Learned VAT-inclusive pricing behavior.")
                (r.1, acc2.2 ++ [r.2])
              else acc2
            let acc4 :=
              match decisionRow.corrections.find? (fun c => c.field = "currency") with
              | some _ =>
                let r := vendorLearnUpsert acc3.1 vms vendor "currency_from_rawText"
                  "default" now (some "Learned currency-from-rawText behavior.")
                (r.1, acc3.2 ++ [r.2])
              | none => acc3
            let qtyFixes := decisionRow.corrections.filter (fun c =>
              hasSub c.field.data ".qty".data)
            let acc5 := qtyFixes.foldl (qtyLearnStep vendor now) acc4
            let acc6 :=
              match decisionRow.corrections.find? (fun c => c.field = "discountTerms") with
              | some _ =>
                let r := vendorLearnUpsert acc5.1 vms vendor "skonto_terms"
                  "default" now (some "Learned skonto terms behavior.")
                (r.1, acc5.2 ++ [r.2])
              | none => acc5
            let acc7 :=
              match decisionRow.corrections.find? (fun c =>
                  c.field = "lineItems[].sku" ∧
                  upperStr (jvalToString c.toVal) = "FREIGHT") with
              | some _ =>
                let r := vendorLearnUpsert acc6.1 vms vendor "sku_mapping"
                  "FREIGHT" now (some "Learned freight description to SKU FREIGHT mapping.")
                (r.1, acc6.2 ++ [r.2])
              | none => acc6
            acc7
          else (db, [])
        let afterResolutions : DB × List TrailEntry :=
          usedKeys.foldl (resolutionLearnStep vendor invoiceId decision now)
            (afterApproved.1, [])
        let dbM := markLearned afterResolutions.1 invoiceId
        let dbL := logAuditEvent dbM
          { ts := now
            eventType := if decision = .approved then "LEARN_APPROVED"
              else "LEARN_REJECTED"
            vendor := some vendor, invoiceId := some invoiceId
            entityType := none, entityId := none
            meta := some (.learnUpdates (afterApproved.2.map (fun u => u.id))) }
        (dbL, some (afterResolutions.2 ++
          [⟨"learn", now, .learnOutcome decision invoiceId⟩], afterApproved.2))

/-- The Learn phase of `runPipeline`: at most once per invoice id (an
already-learned id is a recorded no-op); otherwise, with a human verdict:
on rejection, consulted-and-used correction memories are penalized — where
the source then dereferences the `undefined` return of `markRejected` while
building the audit message, raising a `TypeError` after the first store
update (modelled by the `none` outcome; the dead `maybeUsedVendorMemIds`
loop is a no-op); on approval, the matched vendor- and correction-memory
upserts run; either way `learnCore` records every exercised resolution key,
marks the invoice learned and emits the final learn audit event. -/
def learnPhase (db : DB) (ctx : Ctx) (now : ℚ) (usedKeys usedIds : List String)
    (vms : List VendorMemoryRow) : DB × Option (List TrailEntry × List MemUpdate) :=
  let invoiceId := ctx.extracted.invoiceId
  if hasLearned db invoiceId then
    (db, some ([⟨"learn", now, .skippedLearning invoiceId⟩], []))
  else
    match ctx.correctionsForInvoice.find? (fun x =>
        x.finalDecision = "approved" ∨ x.finalDecision = "rejected") with
    | none => (db, some ([⟨"learn", now, .noDecision⟩], []))
    | some decisionRow =>
      if decisionRow.finalDecision = "approved" then
        learnCore db ctx now usedKeys vms decisionRow .approved
      else
        match usedIds with
        | memId :: _ => (markRejected db memId now, none)
        | [] => learnCore db ctx now usedKeys vms decisionRow .rejected

/-! ### The pipeline engine (`runPipeline`) -/

/-- The Recall audit entries plus the ordered heuristic catalogue of the
Apply phase (service date, PO inference, VAT totals, quantity
reconciliation, currency, freight block) and the closing proposed-count
audit entry. -/
noncomputable def applyStages (db : DB) (ctx : Ctx) (now : ℚ) : AState :=
  let vendor := ctx.vendor
  let vms := getVendorMemories db vendor
  let corrMems := getCorrectionMemories db vendor
  let s0 : AState :=
    { db := db, corrections := [], score := 0.25, usedKeys := [], usedIds := []
      trail := [⟨"recall", now, .recalledVendorMems vms.length vendor⟩,
                ⟨"recall", now, .recalledCorrMems corrMems.length vendor⟩]
      reasons := [] }
  let s6 := freightStep ctx now vms
    (currencyStep ctx now vms
      (qtyStep ctx now
        (vatStep ctx now vms
          (poStep ctx now vms
            (serviceStep ctx now vms s0)))))
  { s6 with trail := s6.trail ++
      [⟨"apply", now, .proposedCount s6.corrections.length⟩] }

/-- The low-confidence half of the Decide condition:
`proposedCorrections.length > 0 && some(c => c.confidence < 0.75)`. -/
noncomputable def anyLowB (cs : List Correction) : Bool :=
  decide (0 < cs.length) && cs.any (fun c => decide (c.confidence < 0.75))

/-- The non-duplicate path of `runPipeline`: Recall → Apply → Decide →
Learn. -/
noncomputable def runAfterGuard (db : DB) (ctx : Ctx) (now : ℚ) :
    DB × Option AgentOutput :=
  let s7 := applyStages db ctx now
  let anyLow := anyLowB s7.corrections
  let critical := hasCriticalMissingFields ctx.extracted.fields s7.corrections
  let review := anyLow || critical
  let decideDetail :=
    if s7.corrections.isEmpty then
      (if critical then
        "Escalated: no corrections proposed but critical fields are missing."
       else "No corrections proposed; auto-accept.")
    else if review then
      (if anyLow then "Escalated: at least one correction below confidence threshold."
       else "Escalated: critical fields missing.")
    else "Auto-correct possible: all corrections high confidence."
  let s8 : AState := { s7 with trail := s7.trail ++
    [⟨"decide", now, .decideMsg decideDetail⟩] }
  let score := if 0 < s8.corrections.length then round2 (minConf s8.corrections)
    else s8.score
  match learnPhase s8.db ctx now s8.usedKeys s8.usedIds
      (getVendorMemories db ctx.vendor) with
  | (dbL, none) => (dbL, none)
  | (dbL, some lt) =>
    (dbL, some
      { normalizedInvoice := ctx.extracted.fields
        proposedCorrections := s8.corrections
        requiresHumanReview := review
        reasoning := s8.reasons
        confidenceScore := score
        memoryUpdates := lt.2
        auditTrail := s8.trail ++ lt.1 })

/-- `runPipeline(db, context, opts)` from `src/engine/runPipeline.ts`.  The
duplicate guard is a hard gate; otherwise Recall → Apply (the ordered
heuristic catalogue) → Decide → Learn, returning the updated store and the
`AgentOutput` — `none` in the output slot when the Learn phase raised (the
rejected-verdict audit template dereferencing `markRejected`'s `undefined`
return). -/
noncomputable def runPipeline (db : DB) (ctx : Ctx) (now : ℚ) :
    DB × Option AgentOutput :=
  match detectDuplicate db ctx.extracted with
  | some dup =>
    let db1 := recordDuplicate db ctx.extracted.invoiceId ctx.extracted.vendor
      dup.fingerprint dup.duplicateOfInvoiceId dup.reason now
    let db2 := { db1 with invoiceRuns := db1.invoiceRuns.map (fun r =>
        if r.invoiceId = ctx.extracted.invoiceId then
          { r with isDuplicate := true
                   duplicateOfInvoiceId := some dup.duplicateOfInvoiceId }
        else r) }
    let db3 := logAuditEvent db2
      { ts := now, eventType := "DUPLICATE_DETECTED"
        vendor := some ctx.extracted.vendor
        invoiceId := some ctx.extracted.invoiceId
        entityType := none, entityId := none
        meta := some (.dupDetected dup.duplicateOfInvoiceId dup.reason) }
    (db3, some
      { normalizedInvoice := ctx.extracted.fields
        proposedCorrections := []
        requiresHumanReview := true
        reasoning := [.duplicateDetected dup.reason dup.duplicateOfInvoiceId]
        confidenceScore := 0.2
        memoryUpdates := []
        auditTrail := [⟨"duplicateGuard", now,
          .duplicateOf dup.duplicateOfInvoiceId dup.reason⟩] })
  | none => runAfterGuard db ctx now

/-! ### Claim theorems about the pipeline engine -/

/-- **C6.** When the duplicate guard reports a duplicate the pipeline
short-circuits: the output is well-formed with `requiresHumanReview = true`,
`confidenceScore = 0.2`, no proposed corrections and no memory updates, and
the store sees no heuristic or learning writes — vendor memory, correction
memory, resolution memory and learning events are untouched; only a
`DuplicateRecord`, the invoice run's duplicate flag and one audit event are
recorded. -/
theorem duplicate_short_circuit (db : DB) (ctx : Ctx) (now : ℚ) (dup : DupResult)
    (hdup : detectDuplicate db ctx.extracted = some dup) :
    (runPipeline db ctx now).2 =
      some { normalizedInvoice := ctx.extracted.fields
             proposedCorrections := []
             requiresHumanReview := true
             reasoning := [.duplicateDetected dup.reason dup.duplicateOfInvoiceId]
             confidenceScore := 0.2
             memoryUpdates := []
             auditTrail := [⟨"duplicateGuard", now,
               .duplicateOf dup.duplicateOfInvoiceId dup.reason⟩] } ∧
    (runPipeline db ctx now).1.vendorMemory = db.vendorMemory ∧
    (runPipeline db ctx now).1.correctionMemory = db.correctionMemory ∧
    (runPipeline db ctx now).1.resolutionMemory = db.resolutionMemory ∧
    (runPipeline db ctx now).1.learningEvents = db.learningEvents ∧
    (runPipeline db ctx now).1.duplicateRecords =
      (db.duplicateRecords.filter (fun d => d.invoiceId ≠ ctx.extracted.invoiceId)) ++
      [{ invoiceId := ctx.extracted.invoiceId, vendor := ctx.extracted.vendor
         fingerprint := dup.fingerprint
         duplicateOfInvoiceId := some dup.duplicateOfInvoiceId
         reason := dup.reason, createdAt := now }] ∧
    (runPipeline db ctx now).1.invoiceRuns = db.invoiceRuns.map (fun r =>
      if r.invoiceId = ctx.extracted.invoiceId then
        { r with isDuplicate := true
                 duplicateOfInvoiceId := some dup.duplicateOfInvoiceId }
      else r) ∧
    (runPipeline db ctx now).1.auditEvents = db.auditEvents ++
      [{ ts := now, eventType := "DUPLICATE_DETECTED"
         vendor := some ctx.extracted.vendor
         invoiceId := some ctx.extracted.invoiceId
         entityType := none, entityId := none
         meta := some (.dupDetected dup.duplicateOfInvoiceId dup.reason) }] := by
  unfold runPipeline
  simp [hdup, recordDuplicate, logAuditEvent]

/-- The Decide condition, spelled out: low-confidence corrections or
critical missing fields (with the PO exemption). -/
theorem review_iff (cs : List Correction) (f : Fields) :
    (anyLowB cs || hasCriticalMissingFields f cs) = true ↔
    ((∃ c ∈ cs, c.confidence < 0.75) ∨
     (isMissingStr f.invoiceNumber = true ∨ isMissingStr f.invoiceDate = true ∨
      isMissingStr f.currency = true ∨ f.netTotal = none ∨ f.grossTotal = none ∨
      (isMissingStr f.poNumber = true ∧
       ¬ ∃ c ∈ cs, c.field = "poNumber" ∧ (0.75 : ℝ) ≤ c.confidence))) := by
  have h1 : (anyLowB cs = true) ↔ ∃ c ∈ cs, c.confidence < 0.75 := by
    unfold anyLowB
    simp only [Bool.and_eq_true, decide_eq_true_eq, List.any_eq_true]
    constructor
    · rintro ⟨-, c, hc, h⟩; exact ⟨c, hc, h⟩
    · rintro ⟨c, hc, h⟩
      exact ⟨List.length_pos.mpr (List.ne_nil_of_mem hc), c, hc, h⟩
  rw [Bool.or_eq_true, h1]
  have h2 : (hasCriticalMissingFields f cs = true) ↔
      (isMissingStr f.invoiceNumber = true ∨ isMissingStr f.invoiceDate = true ∨
       isMissingStr f.currency = true ∨ f.netTotal = none ∨ f.grossTotal = none ∨
       (isMissingStr f.poNumber = true ∧
        ¬ ∃ c ∈ cs, c.field = "poNumber" ∧ (0.75 : ℝ) ≤ c.confidence)) := by
    unfold hasCriticalMissingFields
    simp only [Bool.or_eq_true, Bool.and_eq_true, Bool.not_eq_true',
      List.any_eq_false, Option.isNone_iff_eq_none, decide_eq_true_eq,
      not_exists, not_and]
    tauto
  rw [h2]

/-- The shape of a successful non-duplicate run: the output's corrections,
review flag and confidence score are the Decide-phase values computed from
the Apply-phase state. -/
theorem runAfterGuard_ok (db db' : DB) (ctx : Ctx) (now : ℚ) (out : AgentOutput)
    (hok : runAfterGuard db ctx now = (db', some out)) :
    out.proposedCorrections = (applyStages db ctx now).corrections ∧
    out.requiresHumanReview =
      (anyLowB (applyStages db ctx now).corrections ||
       hasCriticalMissingFields ctx.extracted.fields
         (applyStages db ctx now).corrections) ∧
    out.confidenceScore =
      (if 0 < (applyStages db ctx now).corrections.length then
        round2 (minConf (applyStages db ctx now).corrections)
       else (applyStages db ctx now).score) := by
  unfold runAfterGuard at hok
  dsimp only [] at hok
  split at hok
  · simp at hok
  · rw [Prod.mk.injEq, Option.some.injEq] at hok
    rw [← hok.2]
    exact ⟨rfl, rfl, rfl⟩

/-- **C3.** For every non-duplicate run that returns an output, the Decide
phase sets `requiresHumanReview` exactly when some proposed correction's
confidence is strictly below 0.75, or a critical field (invoice number,
invoice date, currency, net total, gross total, or the purchase-order
number — the latter exempt when a proposed `poNumber` correction with
confidence at least 0.75 exists) is missing. -/
theorem decide_review_gate (db db' : DB) (ctx : Ctx) (now : ℚ) (out : AgentOutput)
    (hnd : detectDuplicate db ctx.extracted = none)
    (hok : runPipeline db ctx now = (db', some out)) :
    (out.requiresHumanReview = true ↔
      ((∃ c ∈ out.proposedCorrections, c.confidence < 0.75) ∨
       (isMissingStr ctx.extracted.fields.invoiceNumber = true ∨
        isMissingStr ctx.extracted.fields.invoiceDate = true ∨
        isMissingStr ctx.extracted.fields.currency = true ∨
        ctx.extracted.fields.netTotal = none ∨
        ctx.extracted.fields.grossTotal = none ∨
        (isMissingStr ctx.extracted.fields.poNumber = true ∧
         ¬ ∃ c ∈ out.proposedCorrections,
             c.field = "poNumber" ∧ (0.75 : ℝ) ≤ c.confidence)))) := by
  unfold runPipeline at hok
  rw [hnd] at hok
  obtain ⟨hcs, hrev, _⟩ := runAfterGuard_ok db db' ctx now out hok
  rw [hrev, hcs]
  exact review_iff (applyStages db ctx now).corrections ctx.extracted.fields

/-! Score accounting across the Apply catalogue: every heuristic step only
appends corrections, only raises the running confidence, and raises it only
when it pushes a correction — except the VAT step, whose totals-verified
branch raises the score without pushing. -/

theorem serviceStep_spec (ctx : Ctx) (now : ℚ) (vms : List VendorMemoryRow)
    (s : AState) :
    s.score ≤ (serviceStep ctx now vms s).score ∧
    (∃ δ, (serviceStep ctx now vms s).corrections = s.corrections ++ δ) ∧
    ((serviceStep ctx now vms s).corrections = s.corrections →
      (serviceStep ctx now vms s).score = s.score) := by
  unfold serviceStep
  dsimp only []
  split
  · refine ⟨le_max_left _ _, ⟨_, rfl⟩, ?_⟩
    intro h; exfalso; simp at h
  · split
    · split
      · exact ⟨le_rfl, ⟨[], by simp⟩, fun _ => rfl⟩
      · exact ⟨le_rfl, ⟨[], by simp⟩, fun _ => rfl⟩
    · exact ⟨le_rfl, ⟨[], by simp⟩, fun _ => rfl⟩

theorem poStep_spec (ctx : Ctx) (now : ℚ) (vms : List VendorMemoryRow)
    (s : AState) :
    s.score ≤ (poStep ctx now vms s).score ∧
    (∃ δ, (poStep ctx now vms s).corrections = s.corrections ++ δ) ∧
    ((poStep ctx now vms s).corrections = s.corrections →
      (poStep ctx now vms s).score = s.score) := by
  unfold poStep
  dsimp only []
  split
  · split
    · refine ⟨le_max_left _ _, ⟨_, rfl⟩, ?_⟩
      intro h; exfalso; simp at h
    · exact ⟨le_rfl, ⟨[], by simp⟩, fun _ => rfl⟩
  · exact ⟨le_rfl, ⟨[], by simp⟩, fun _ => rfl⟩

theorem vatStep_not_vat (ctx : Ctx) (now : ℚ) (vms : List VendorMemoryRow)
    (s : AState) (h : isVatInclusiveText (ctx.extracted.rawText.getD "") = false) :
    vatStep ctx now vms s = s := by
  unfold vatStep
  simp [h]

theorem vatStep_score_mono (ctx : Ctx) (now : ℚ) (vms : List VendorMemoryRow)
    (s : AState) : s.score ≤ (vatStep ctx now vms s).score := by
  unfold vatStep
  try dsimp only []
  repeat' split
  all_goals first
    | exact le_rfl
    | exact le_max_left _ _

theorem qtyItemStep_spec (ctx : Ctx) (now : ℚ) (s : AState) (li : LineItem) :
    s.score ≤ (qtyItemStep ctx now s li).score ∧
    (∃ δ, (qtyItemStep ctx now s li).corrections = s.corrections ++ δ) ∧
    ((qtyItemStep ctx now s li).corrections = s.corrections →
      (qtyItemStep ctx now s li).score = s.score) := by
  unfold qtyItemStep
  dsimp only []
  split
  · split
    · exact ⟨le_rfl, ⟨[], by simp⟩, fun _ => rfl⟩
    · split
      · exact ⟨le_rfl, ⟨[], by simp⟩, fun _ => rfl⟩
      · split
        · exact ⟨le_rfl, ⟨[], by simp⟩, fun _ => rfl⟩
        · dsimp only []
          split
          · split
            · refine ⟨le_max_left _ _, ⟨_, rfl⟩, ?_⟩
              intro h; exfalso; simp at h
            · refine ⟨le_max_left _ _, ⟨_, rfl⟩, ?_⟩
              intro h; exfalso; simp at h
          · refine ⟨le_max_left _ _, ⟨_, rfl⟩, ?_⟩
            intro h; exfalso; simp at h
  · exact ⟨le_rfl, ⟨[], by simp⟩, fun _ => rfl⟩

theorem qtyStep_spec (ctx : Ctx) (now : ℚ) (s : AState) :
    s.score ≤ (qtyStep ctx now s).score ∧
    (∃ δ, (qtyStep ctx now s).corrections = s.corrections ++ δ) ∧
    ((qtyStep ctx now s).corrections = s.corrections →
      (qtyStep ctx now s).score = s.score) := by
  unfold qtyStep
  generalize ctx.extracted.fields.lineItems = l
  induction l generalizing s with
  | nil => exact ⟨le_rfl, ⟨[], by simp⟩, fun _ => rfl⟩
  | cons a t ih =>
    obtain ⟨h1, ⟨δ1, h2⟩, h3⟩ := qtyItemStep_spec ctx now s a
    obtain ⟨h4, ⟨δ2, h5⟩, h6⟩ := ih (qtyItemStep ctx now s a)
    refine ⟨le_trans h1 h4, ⟨δ1 ++ δ2, by simp [h5, h2]⟩, ?_⟩
    intro h
    rw [List.foldl_cons] at h ⊢
    rw [h5, h2, List.append_assoc] at h
    have hδ : δ1 ++ δ2 = [] := by
      have := List.append_cancel_left (h.trans (List.append_nil _).symm)
      exact this
    have hδ1 : δ1 = [] := (List.append_eq_nil.mp hδ).1
    have hδ2 : δ2 = [] := (List.append_eq_nil.mp hδ).2
    have hc1 : (qtyItemStep ctx now s a).corrections = s.corrections := by
      rw [h2, hδ1, List.append_nil]
    have hc2 := h6 (by rw [h5, hδ2, List.append_nil])
    rw [hc2, h3 hc1]

theorem currencyStep_spec (ctx : Ctx) (now : ℚ) (vms : List VendorMemoryRow)
    (s : AState) :
    s.score ≤ (currencyStep ctx now vms s).score ∧
    (∃ δ, (currencyStep ctx now vms s).corrections = s.corrections ++ δ) ∧
    ((currencyStep ctx now vms s).corrections = s.corrections →
      (currencyStep ctx now vms s).score = s.score) := by
  unfold currencyStep
  dsimp only []
  split
  · split
    · refine ⟨le_max_left _ _, ⟨_, rfl⟩, ?_⟩
      intro h; exfalso; simp at h
    · try dsimp only []
      split
      · split
        · refine ⟨le_max_left _ _, ⟨_, rfl⟩, ?_⟩
          intro h; exfalso; simp at h
        · exact ⟨le_rfl, ⟨[], by simp⟩, fun _ => rfl⟩
      · exact ⟨le_rfl, ⟨[], by simp⟩, fun _ => rfl⟩
  · exact ⟨le_rfl, ⟨[], by simp⟩, fun _ => rfl⟩

theorem skontoPart_spec (ctx : Ctx) (now : ℚ) (vms : List VendorMemoryRow)
    (s : AState) :
    s.score ≤ (skontoPart ctx now vms s).score ∧
    (∃ δ, (skontoPart ctx now vms s).corrections = s.corrections ++ δ) ∧
    ((skontoPart ctx now vms s).corrections = s.corrections →
      (skontoPart ctx now vms s).score = s.score) := by
  unfold skontoPart
  dsimp only []
  split
  · split
    · refine ⟨le_max_left _ _, ⟨_, rfl⟩, ?_⟩
      intro h; exfalso; simp at h
    · try dsimp only []
      split
      · split
        · refine ⟨le_max_left _ _, ⟨_, rfl⟩, ?_⟩
          intro h; exfalso; simp at h
        · exact ⟨le_rfl, ⟨[], by simp⟩, fun _ => rfl⟩
      · exact ⟨le_rfl, ⟨[], by simp⟩, fun _ => rfl⟩
  · exact ⟨le_rfl, ⟨[], by simp⟩, fun _ => rfl⟩

theorem freightItemPart_spec (ctx : Ctx) (now : ℚ) (vms : List VendorMemoryRow)
    (s : AState) :
    s.score ≤ (freightItemPart ctx now vms s).score ∧
    (∃ δ, (freightItemPart ctx now vms s).corrections = s.corrections ++ δ) ∧
    ((freightItemPart ctx now vms s).corrections = s.corrections →
      (freightItemPart ctx now vms s).score = s.score) := by
  unfold freightItemPart
  try dsimp only []
  split
  · exact ⟨le_rfl, ⟨[], by simp⟩, fun _ => rfl⟩
  · try dsimp only []
    repeat' split
    all_goals first
      | (exfalso; simp_all; done)
      | (exact ⟨le_rfl, ⟨[], by simp⟩, fun _ => rfl⟩)
      | (refine ⟨le_max_left _ _, ⟨_, rfl⟩, ?_⟩
         intro h
         exfalso
         simp at h)
      | (refine ⟨le_max_left _ _, ⟨_, by simp⟩, ?_⟩
         intro h
         exfalso
         simp at h)

theorem freightStep_spec (ctx : Ctx) (now : ℚ) (vms : List VendorMemoryRow)
    (s : AState) :
    s.score ≤ (freightStep ctx now vms s).score ∧
    (∃ δ, (freightStep ctx now vms s).corrections = s.corrections ++ δ) ∧
    ((freightStep ctx now vms s).corrections = s.corrections →
      (freightStep ctx now vms s).score = s.score) := by
  unfold freightStep
  try dsimp only []
  split
  · obtain ⟨h1, ⟨δ1, h2⟩, h3⟩ := skontoPart_spec ctx now vms s
    obtain ⟨h4, ⟨δ2, h5⟩, h6⟩ := freightItemPart_spec ctx now vms (skontoPart ctx now vms s)
    refine ⟨le_trans h1 h4, ⟨δ1 ++ δ2, by rw [h5, h2, List.append_assoc]⟩, ?_⟩
    intro h
    rw [h5, h2, List.append_assoc] at h
    have hδ := List.append_cancel_left (h.trans (List.append_nil _).symm)
    have hδ1 : δ1 = [] := (List.append_eq_nil.mp hδ).1
    have hδ2 : δ2 = [] := (List.append_eq_nil.mp hδ).2
    have hc1 : (skontoPart ctx now vms s).corrections = s.corrections := by
      rw [h2, hδ1, List.append_nil]
    have hc2 := h6 (by rw [h5, hδ2, List.append_nil])
    rw [hc2, h3 hc1]
  · exact ⟨le_rfl, ⟨[], by simp⟩, fun _ => rfl⟩

/-- The Apply phase never lowers the running confidence below its 0.25
baseline. -/
theorem applyStages_score_ge (db : DB) (ctx : Ctx) (now : ℚ) :
    (0.25 : ℝ) ≤ (applyStages db ctx now).score := by
  unfold applyStages
  try dsimp only []
  refine le_trans ?_ ((freightStep_spec ctx now _ _).1)
  refine le_trans ?_ ((currencyStep_spec ctx now _ _).1)
  refine le_trans ?_ ((qtyStep_spec ctx now _).1)
  refine le_trans ?_ (vatStep_score_mono ctx now _ _)
  refine le_trans ?_ ((poStep_spec ctx now _ _).1)
  refine le_trans ?_ ((serviceStep_spec ctx now _ _).1)
  exact le_rfl

/-- When no heuristic pushed a correction and the VAT-inclusive cue is
absent, the Apply catalogue leaves the running confidence untouched. -/
theorem applySeq_score_of_no_push (ctx : Ctx) (now : ℚ)
    (vms : List VendorMemoryRow) (s : AState)
    (hv : isVatInclusiveText (ctx.extracted.rawText.getD "") = false)
    (h : (freightStep ctx now vms (currencyStep ctx now vms (qtyStep ctx now
      (vatStep ctx now vms (poStep ctx now vms
        (serviceStep ctx now vms s)))))).corrections = s.corrections) :
    (freightStep ctx now vms (currencyStep ctx now vms (qtyStep ctx now
      (vatStep ctx now vms (poStep ctx now vms
        (serviceStep ctx now vms s)))))).score = s.score := by
  rw [vatStep_not_vat ctx now vms _ hv] at h ⊢
  obtain ⟨-, ⟨δ1, e1⟩, c1⟩ := serviceStep_spec ctx now vms s
  obtain ⟨-, ⟨δ2, e2⟩, c2⟩ := poStep_spec ctx now vms (serviceStep ctx now vms s)
  obtain ⟨-, ⟨δ3, e3⟩, c3⟩ := qtyStep_spec ctx now
    (poStep ctx now vms (serviceStep ctx now vms s))
  obtain ⟨-, ⟨δ4, e4⟩, c4⟩ := currencyStep_spec ctx now vms
    (qtyStep ctx now (poStep ctx now vms (serviceStep ctx now vms s)))
  obtain ⟨-, ⟨δ5, e5⟩, c5⟩ := freightStep_spec ctx now vms
    (currencyStep ctx now vms (qtyStep ctx now
      (poStep ctx now vms (serviceStep ctx now vms s))))
  rw [e5, e4, e3, e2, e1] at h
  repeat rw [List.append_assoc] at h
  have hδ := List.append_cancel_left (h.trans (List.append_nil _).symm)
  rw [List.append_eq_nil] at hδ
  obtain ⟨h1, hδ⟩ := hδ
  rw [List.append_eq_nil] at hδ
  obtain ⟨h2, hδ⟩ := hδ
  rw [List.append_eq_nil] at hδ
  obtain ⟨h3, hδ⟩ := hδ
  rw [List.append_eq_nil] at hδ
  obtain ⟨h4, h5⟩ := hδ
  rw [c5 (by rw [e5, h5, List.append_nil]),
      c4 (by rw [e4, h4, List.append_nil]),
      c3 (by rw [e3, h3, List.append_nil]),
      c2 (by rw [e2, h2, List.append_nil]),
      c1 (by rw [e1, h1, List.append_nil])]

/-- With no proposed corrections and no VAT-inclusive cue, the Apply-phase
confidence is exactly the 0.25 baseline. -/
theorem applyStages_score_of_no_corrections (db : DB) (ctx : Ctx) (now : ℚ)
    (hv : isVatInclusiveText (ctx.extracted.rawText.getD "") = false)
    (hc : (applyStages db ctx now).corrections = []) :
    (applyStages db ctx now).score = 0.25 := by
  unfold applyStages at hc ⊢
  dsimp only [] at hc ⊢
  exact applySeq_score_of_no_push ctx now _ _ hv hc

/-- **C4 (amended).** For every non-duplicate run that returns an output:
when corrections were proposed the reported `confidenceScore` is the minimum
of their confidences rounded to two decimals; when none were proposed, the
score is the Apply phase's running aggregate — at least the 0.25 baseline,
and exactly 0.25 unless the VAT-inclusive branch fired (which can raise the
score without proposing anything). -/
theorem confidence_score_aggregation (db db' : DB) (ctx : Ctx) (now : ℚ)
    (out : AgentOutput)
    (hnd : detectDuplicate db ctx.extracted = none)
    (hok : runPipeline db ctx now = (db', some out)) :
    (out.proposedCorrections ≠ [] →
      out.confidenceScore = round2 (minConf out.proposedCorrections)) ∧
    (out.proposedCorrections = [] → (0.25 : ℝ) ≤ out.confidenceScore) ∧
    (out.proposedCorrections = [] →
      isVatInclusiveText (ctx.extracted.rawText.getD "") = false →
      out.confidenceScore = 0.25) := by
  unfold runPipeline at hok
  rw [hnd] at hok
  obtain ⟨hcs, -, hscore⟩ := runAfterGuard_ok db db' ctx now out hok
  refine ⟨?_, ?_, ?_⟩
  · intro hne
    rw [hcs] at hne
    rw [hscore, hcs, if_pos (List.length_pos.mpr hne)]
  · intro hempty
    rw [hcs] at hempty
    rw [hscore, if_neg (by rw [hempty]; simp)]
    exact applyStages_score_ge db ctx now
  · intro hempty hv
    rw [hcs] at hempty
    rw [hscore, if_neg (by rw [hempty]; simp)]
    exact applyStages_score_of_no_corrections db ctx now hv hempty

/-- Audit logging does not touch the learning-events table. -/
theorem hasLearned_logAuditEvent (db : DB) (e : AuditEvent) (i : String) :
    hasLearned (logAuditEvent db e) i = hasLearned db i := rfl

/-- `markLearned` leaves the invoice id recorded. -/
theorem hasLearned_markLearned_self (db : DB) (i : String) :
    hasLearned (markLearned db i) i = true := by
  unfold hasLearned markLearned
  split
  · assumption
  · simp

/-- `learnCore` always ends with `markLearned`: afterwards the invoice id is
recorded in `learning_events`. -/
theorem hasLearned_learnCore (db : DB) (ctx : Ctx) (now : ℚ)
    (usedKeys : List String) (vms : List VendorMemoryRow)
    (row : DecisionRow) (d : RDecision) :
    hasLearned (learnCore db ctx now usedKeys vms row d).1
      ctx.extracted.invoiceId = true := by
  unfold learnCore
  dsimp only []
  rw [hasLearned_logAuditEvent, hasLearned_markLearned_self]

/-- **C5 (amended).** The Learn phase is idempotent per invoice id: after a
Learn execution on a decision record whose verdict is `approved`, a second
Learn execution (at any later instant, with any exercised keys or used
memory ids) leaves the store exactly as it was and only records the skip in
its trail — no vendor-memory, correction-memory, resolution-memory or
learning-events mutation happens; memory state after two Learn executions
equals the state after one. -/
theorem learn_twice_noop (db db' : DB) (ctx : Ctx) (now now' : ℚ)
    (k i k' i' : List String) (vms vms' : List VendorMemoryRow)
    (r : List TrailEntry × List MemUpdate)
    (happr : (ctx.correctionsForInvoice.find? (fun x =>
        x.finalDecision = "approved" ∨ x.finalDecision = "rejected")).map
        (fun d => d.finalDecision) = some "approved")
    (heval : learnPhase db ctx now k i vms = (db', some r)) :
    learnPhase db' ctx now' k' i' vms' =
      (db', some ([⟨"learn", now', .skippedLearning ctx.extracted.invoiceId⟩], [])) := by
  have hl : hasLearned db' ctx.extracted.invoiceId = true := by
    unfold learnPhase at heval
    by_cases h : hasLearned db ctx.extracted.invoiceId = true
    · rw [if_pos h] at heval
      rw [Prod.mk.injEq] at heval
      rw [← heval.1]
      exact h
    · rw [if_neg h] at heval
      cases hf : ctx.correctionsForInvoice.find? (fun x =>
          x.finalDecision = "approved" ∨ x.finalDecision = "rejected") with
      | none => rw [hf] at happr; simp at happr
      | some row =>
        rw [hf] at happr heval
        dsimp only [] at heval
        simp only [Option.map, Option.some.injEq] at happr
        rw [if_pos happr] at heval
        have : (learnCore db ctx now k vms row .approved).1 = db' := by
          rw [heval]
        rw [← this]
        exact hasLearned_learnCore db ctx now k vms row .approved
  unfold learnPhase
  rw [if_pos hl]

/-- **C9 (amended).** An entry disabled through the administrative interface
(which stamps `disabledAt`) is never again surfaced by the recall query,
even though the Learn phase's approval upsert rewrites the listed columns —
including flipping `status` back to `active` — because `upsertVendorMemory`
preserves `disabledAt` on conflict and `getVendorMemories` filters it. -/
theorem disabled_entry_not_recalled (db : DB) (mem : VendorMemUpsert)
    (r : VendorMemoryRow) (v : String)
    (hr : r ∈ db.vendorMemory)
    (hd : ∀ x ∈ db.vendorMemory, x.id = r.id → x.disabledAt ≠ none) :
    ∀ r' ∈ getVendorMemories (upsertVendorMemory db mem) v, r'.id ≠ r.id := by
  intro r' hr' heq
  unfold getVendorMemories at hr'
  rw [List.mem_filter] at hr'
  obtain ⟨hmem, hcond⟩ := hr'
  simp only [decide_eq_true_eq] at hcond
  obtain ⟨-, -, hdis⟩ := hcond
  unfold upsertVendorMemory at hmem
  split at hmem
  · rw [List.mem_map] at hmem
    obtain ⟨x, hx, hxeq⟩ := hmem
    by_cases hxid : x.id = mem.id
    · rw [if_pos hxid] at hxeq
      have hpres : r'.disabledAt = x.disabledAt := by rw [← hxeq]
      have hid : x.id = r.id := by
        have : r'.id = x.id := by rw [← hxeq]
        rw [← this, heq]
      exact hd x hx hid (by rw [← hpres, hdis])
    · rw [if_neg hxid] at hxeq
      subst hxeq
      exact hd x hx heq (by rw [hdis])
  · rename_i hnone
    rw [List.mem_append] at hmem
    rcases hmem with hmem | hmem
    · exact hd r' hmem heq hdis
    · rw [List.mem_singleton] at hmem
      subst hmem
      apply hnone
      refine List.any_eq_true.mpr ⟨r, hr, ?_⟩
      simp only [decide_eq_true_eq]
      exact heq.symm

/-! ### Concrete scenario S0: a fully populated invoice whose single line
item disagrees with the delivery note — one medium-confidence quantity
correction, no human decision on file. -/

/-- Scenario S0 invoice fields. -/
def fieldsS0 : Fields :=
  { invoiceNumber := some "R-1001", invoiceDate := some "2024-01-15"
    serviceDate := some "2024-01-10", currency := some "EUR"
    netTotal := some 100, grossTotal := some 119, taxTotal := some 19
    taxRate := none, poNumber := some "PO-1", discountTerms := none
    lineItems := [{ sku := some "S1", qty := some 5, description := none }] }

/-- Scenario S0 pipeline context. -/
def ctxS0 : Ctx :=
  { vendor := "Acme"
    extracted := { invoiceId := "INV-1", vendor := "Acme", rawText := some ""
                   fields := fieldsS0 }
    reference := { purchaseOrders := []
                   deliveryNotes := [{ vendor := "Acme", poNumber := some "PO-1"
                                       lineItems := [{ sku := some "S1"
                                                       qtyDelivered := some 7 }] }] }
    correctionsForInvoice := [] }

/-- The quantity correction the Apply phase proposes in scenario S0. -/
noncomputable def corrS0 : Correction :=
  { field := "lineItems[sku=S1].qty", fromVal := .num ((5 : ℚ) : ℝ)
    toVal := .num ((7 : ℚ) : ℝ), source := "reference_heuristic"
    confidence := 0.6, reason := .dnQtyDiffers 7 5 "S1" }

/-- The Apply-phase state after the heuristic catalogue in scenario S0. -/
noncomputable def sQS0 : AState :=
  { db := emptyDB true
    corrections := [corrS0]
    score := max 0.25 0.6
    usedKeys := ["qty_to_delivery_note"]
    usedIds := []
    trail := [⟨"recall", 0, .recalledVendorMems 0 "Acme"⟩,
              ⟨"recall", 0, .recalledCorrMems 0 "Acme"⟩,
              ⟨"apply", 0, .resolutionApplied "qty_to_delivery_note" .noHistory⟩]
    reasons := [.qtyHeuristic "S1"] }

/-- The Apply phase evaluated on scenario S0. -/
theorem applyStages_S0 :
    applyStages (emptyDB true) ctxS0 0 =
      { sQS0 with trail := sQS0.trail ++ [⟨"apply", 0, .proposedCount 1⟩] } := rfl

/-- The S0 correction is below the 0.75 review threshold. -/
theorem anyLowB_S0 : anyLowB [corrS0] = true := by
  simp only [anyLowB, corrS0, List.any_cons, List.any_nil, Bool.or_false,
    List.length_cons, List.length_nil, Bool.and_eq_true, decide_eq_true_eq]
  norm_num

/-- The rounded minimum confidence in scenario S0. -/
theorem minConf_S0 : round2 (minConf [corrS0]) = 0.6 := by
  unfold minConf corrS0 round2
  norm_num [round_eq]

/-- The pipeline output of scenario S0. -/
noncomputable def outS0 : AgentOutput :=
  { normalizedInvoice := fieldsS0
    proposedCorrections := [corrS0]
    requiresHumanReview := true
    reasoning := [.qtyHeuristic "S1"]
    confidenceScore := 0.6
    memoryUpdates := []
    auditTrail := [⟨"recall", 0, .recalledVendorMems 0 "Acme"⟩,
                   ⟨"recall", 0, .recalledCorrMems 0 "Acme"⟩,
                   ⟨"apply", 0, .resolutionApplied "qty_to_delivery_note" .noHistory⟩,
                   ⟨"apply", 0, .proposedCount 1⟩,
                   ⟨"decide", 0, .decideMsg
                     "Escalated: at least one correction below confidence threshold."⟩,
                   ⟨"learn", 0, .noDecision⟩] }

/-- Scenario S0 end to end: one 0.6-confidence correction, review required,
score 0.6, no store writes. -/
theorem runPipeline_S0 :
    runPipeline (emptyDB true) ctxS0 0 = (emptyDB true, some outS0) := by
  have hlearn : learnPhase (emptyDB true) ctxS0 0 ["qty_to_delivery_note"] []
      (getVendorMemories (emptyDB true) ctxS0.vendor) =
      (emptyDB true, some ([⟨"learn", 0, .noDecision⟩], [])) := rfl
  have hcrit : hasCriticalMissingFields ctxS0.extracted.fields [corrS0] = false := rfl
  unfold runPipeline
  rw [show detectDuplicate (emptyDB true) ctxS0.extracted = none from rfl]
  unfold runAfterGuard
  rw [applyStages_S0]
  dsimp only [sQS0]
  rw [anyLowB_S0, hcrit]
  rw [minConf_S0, hlearn]
  rfl

/-- **C3 witness.** Scenario S0: the single 0.6-confidence correction makes
the review gate fire, matching the Decide condition. -/
theorem decide_review_gate_witness :
    detectDuplicate (emptyDB true) ctxS0.extracted = none ∧
    (outS0.requiresHumanReview = true ↔
      ((∃ c ∈ outS0.proposedCorrections, c.confidence < 0.75) ∨
       (isMissingStr ctxS0.extracted.fields.invoiceNumber = true ∨
        isMissingStr ctxS0.extracted.fields.invoiceDate = true ∨
        isMissingStr ctxS0.extracted.fields.currency = true ∨
        ctxS0.extracted.fields.netTotal = none ∨
        ctxS0.extracted.fields.grossTotal = none ∨
        (isMissingStr ctxS0.extracted.fields.poNumber = true ∧
         ¬ ∃ c ∈ outS0.proposedCorrections,
             c.field = "poNumber" ∧ (0.75 : ℝ) ≤ c.confidence)))) :=
  ⟨rfl, decide_review_gate (emptyDB true) (emptyDB true) ctxS0 0 outS0 rfl runPipeline_S0⟩

/-- **C4 witness.** Scenario S0: with one proposed correction the reported
score is the rounded minimum correction confidence. -/
theorem confidence_score_aggregation_witness :
    outS0.proposedCorrections ≠ [] ∧
    outS0.confidenceScore = round2 (minConf outS0.proposedCorrections) :=
  ⟨by simp [outS0],
   (confidence_score_aggregation (emptyDB true) (emptyDB true) ctxS0 0 outS0
     rfl runPipeline_S0).1 (by simp [outS0])⟩

/-! ### Concrete scenario S1: VAT-inclusive language with already-consistent
totals — the VAT heuristic verifies the totals, proposes nothing, and raises
the running confidence above the 0.25 baseline. -/

/-- Scenario S1 invoice fields (consistent 19% VAT totals, no line items). -/
def fieldsS1 : Fields :=
  { invoiceNumber := some "R-2002", invoiceDate := some "2024-02-15"
    serviceDate := some "2024-02-10", currency := some "EUR"
    netTotal := some 100, grossTotal := some 119, taxTotal := some 19
    taxRate := none, poNumber := some "PO-2", discountTerms := none
    lineItems := [] }

/-- Scenario S1 pipeline context. -/
def ctxS1 : Ctx :=
  { vendor := "Acme"
    extracted := { invoiceId := "INV-2", vendor := "Acme"
                   rawText := some "VAT included", fields := fieldsS1 }
    reference := { purchaseOrders := [], deliveryNotes := [] }
    correctionsForInvoice := [] }

/-- The Apply-phase state entering the VAT heuristic in scenario S1. -/
noncomputable def s0S1 : AState :=
  { db := emptyDB true, corrections := [], score := 0.25, usedKeys := []
    usedIds := []
    trail := [⟨"recall", 0, .recalledVendorMems 0 "Acme"⟩,
              ⟨"recall", 0, .recalledCorrMems 0 "Acme"⟩]
    reasons := [] }

/-- The Apply-phase state after the VAT heuristic in scenario S1. -/
noncomputable def s1S1 : AState :=
  { db := emptyDB true, corrections := [], score := max 0.25 (min 0.85 0.6)
    usedKeys := ["vat_inclusive_recompute_totals"], usedIds := []
    trail := [⟨"recall", 0, .recalledVendorMems 0 "Acme"⟩,
              ⟨"recall", 0, .recalledCorrMems 0 "Acme"⟩,
              ⟨"apply", 0, .resolutionApplied "vat_inclusive_recompute_totals"
                .noHistory⟩,
              ⟨"apply", 0, .vatVerified 119 19⟩]
    reasons := [.vatVerifiedPlain] }

/-- The VAT heuristic on scenario S1: totals check out, nothing is proposed,
the score is bumped to `min 0.85 0.6`. -/
theorem vatStep_S1 : vatStep ctxS1 0 [] s0S1 = s1S1 := by
  have hG : round2 (((100 : ℚ) : ℝ) * (1 + ((19/100 : ℚ) : ℝ))) = 119 := by
    unfold round2
    push_cast
    norm_num [round_eq]
  have hT : round2 (119 - ((100 : ℚ) : ℝ)) = 19 := by
    unfold round2
    push_cast
    norm_num [round_eq]
  unfold vatStep
  dsimp only [ctxS1, fieldsS1, Option.getD]
  rw [show isVatInclusiveText "VAT included" = true from rfl]
  try dsimp only []
  rw [show extractTotalFromRawText "VAT included" = none from rfl]
  try dsimp only []
  rw [hG, hT]
  rw [if_neg (show ¬ ((0.01 : ℝ) < |((119 : ℚ) : ℝ) - 119|) by push_cast; norm_num),
      if_neg (show ¬ ((0.01 : ℝ) < |((19 : ℚ) : ℝ) - 19|) by push_cast; norm_num)]
  rfl

/-- The Apply phase evaluated on scenario S1. -/
theorem applyStages_S1 :
    applyStages (emptyDB true) ctxS1 0 =
      { s1S1 with trail := s1S1.trail ++ [⟨"apply", 0, .proposedCount 0⟩] } := by
  have step1 : applyStages (emptyDB true) ctxS1 0 =
      (fun s6 : AState => { s6 with trail := s6.trail ++
        [⟨"apply", 0, .proposedCount s6.corrections.length⟩] })
      (freightStep ctxS1 0 []
        (currencyStep ctxS1 0 []
          (qtyStep ctxS1 0 (vatStep ctxS1 0 [] s0S1)))) := rfl
  rw [step1, vatStep_S1]
  rfl

/-- The pipeline output of scenario S1. -/
noncomputable def outS1 : AgentOutput :=
  { normalizedInvoice := fieldsS1
    proposedCorrections := []
    requiresHumanReview := false
    reasoning := [.vatVerifiedPlain]
    confidenceScore := max 0.25 (min 0.85 0.6)
    memoryUpdates := []
    auditTrail := [⟨"recall", 0, .recalledVendorMems 0 "Acme"⟩,
                   ⟨"recall", 0, .recalledCorrMems 0 "Acme"⟩,
                   ⟨"apply", 0, .resolutionApplied "vat_inclusive_recompute_totals"
                     .noHistory⟩,
                   ⟨"apply", 0, .vatVerified 119 19⟩,
                   ⟨"apply", 0, .proposedCount 0⟩,
                   ⟨"decide", 0, .decideMsg "No corrections proposed; auto-accept."⟩,
                   ⟨"learn", 0, .noDecision⟩] }

/-- Scenario S1 end to end: no corrections, yet the reported score is the
VAT-verified `max 0.25 (min 0.85 0.6)`, not the 0.25 baseline. -/
theorem runPipeline_S1 :
    runPipeline (emptyDB true) ctxS1 0 = (emptyDB true, some outS1) := by
  have hlearn : learnPhase (emptyDB true) ctxS1 0 ["vat_inclusive_recompute_totals"] []
      (getVendorMemories (emptyDB true) ctxS1.vendor) =
      (emptyDB true, some ([⟨"learn", 0, .noDecision⟩], [])) := rfl
  unfold runPipeline
  rw [show detectDuplicate (emptyDB true) ctxS1.extracted = none from rfl]
  unfold runAfterGuard
  rw [applyStages_S1]
  dsimp only [s1S1]
  rw [hlearn]
  rfl

/-- **C4 counterexample.** In scenario S1 the pipeline proposes no
corrections, yet the reported confidence score is 0.6 — the VAT-verified
bump, not the initial 0.25 baseline the claim says stands. -/
theorem confidence_score_baseline_overridden :
    ∃ out, runPipeline (emptyDB true) ctxS1 0 = (emptyDB true, some out) ∧
      out.proposedCorrections = [] ∧
      out.confidenceScore = 0.6 ∧ out.confidenceScore ≠ 0.25 := by
  refine ⟨outS1, runPipeline_S1, rfl, ?_, ?_⟩
  · show (max 0.25 (min 0.85 0.6) : ℝ) = 0.6
    norm_num
  · show (max 0.25 (min 0.85 0.6) : ℝ) ≠ 0.25
    norm_num

/-! ### Concrete duplicate scenario (C6): invoice B carries the same vendor
and invoice number as the earlier non-duplicate run A. -/

/-- Store with runs A (original) and B (current) sharing vendor+number. -/
def dbC6 : DB :=
  { emptyDB true with invoiceRuns :=
      [{ invoiceId := "INV-A", vendor := "Acme", dataset := "d", createdAt := 0
         invoiceNumber := some "N1", fingerprint := none, isDuplicate := false
         duplicateOfInvoiceId := none },
       { invoiceId := "INV-B", vendor := "Acme", dataset := "d", createdAt := 1
         invoiceNumber := some "N1", fingerprint := none, isDuplicate := false
         duplicateOfInvoiceId := none }] }

/-- The context of the duplicate submission B. -/
def ctxC6 : Ctx :=
  { vendor := "Acme"
    extracted := { invoiceId := "INV-B", vendor := "Acme", rawText := some ""
                   fields := { baseFields with invoiceNumber := some "N1" } }
    reference := { purchaseOrders := [], deliveryNotes := [] }
    correctionsForInvoice := [] }

/-- The guard verdict on B: duplicate of A. -/
def dupC6 : DupResult :=
  { duplicateOfInvoiceId := "INV-A"
    reason := "Same vendor+invoiceNumber already seen (N1)."
    fingerprint := { vendor := "acme", invoiceNumber := "n1", currency := ""
                     total := none, rawSlice := "" } }

/-- **C6 witness.** Submitting B short-circuits: fixed 0.2-confidence
review-required output and no memory writes. -/
theorem duplicate_short_circuit_witness :
    detectDuplicate dbC6 ctxC6.extracted = some dupC6 ∧
    (runPipeline dbC6 ctxC6 0).2 = some
      { normalizedInvoice := ctxC6.extracted.fields
        proposedCorrections := []
        requiresHumanReview := true
        reasoning := [.duplicateDetected dupC6.reason dupC6.duplicateOfInvoiceId]
        confidenceScore := 0.2
        memoryUpdates := []
        auditTrail := [⟨"duplicateGuard", 0,
          .duplicateOf dupC6.duplicateOfInvoiceId dupC6.reason⟩] } ∧
    (runPipeline dbC6 ctxC6 0).1.vendorMemory = dbC6.vendorMemory ∧
    (runPipeline dbC6 ctxC6 0).1.correctionMemory = dbC6.correctionMemory ∧
    (runPipeline dbC6 ctxC6 0).1.learningEvents = dbC6.learningEvents := by
  have h := duplicate_short_circuit dbC6 ctxC6 0 dupC6 (by decide)
  exact ⟨by decide, h.1, h.2.1, h.2.2.1, h.2.2.2.2.1⟩

/-! ### Concrete Learn scenario (C5): an approved decision with no field
fixes — Learn marks the invoice learned and logs the approval. -/

/-- Context with an approved human decision for invoice `INV-L`. -/
def ctxL : Ctx :=
  { vendor := "Acme"
    extracted := { invoiceId := "INV-L", vendor := "Acme", rawText := some ""
                   fields := baseFields }
    reference := { purchaseOrders := [], deliveryNotes := [] }
    correctionsForInvoice := [{ finalDecision := "approved", corrections := [] }] }

/-- The store after the first Learn execution on `ctxL`. -/
def dbL1 : DB :=
  { emptyDB true with
      learningEvents := ["INV-L"]
      auditEvents := [{ ts := 0, eventType := "LEARN_APPROVED"
                        vendor := some "Acme", invoiceId := some "INV-L"
                        entityType := none, entityId := none
                        meta := some (.learnUpdates []) }] }

/-- **C5 witness.** Learning `INV-L` once writes the learning event; the
second Learn execution leaves the store untouched and records only the
skip. -/
theorem learn_twice_noop_witness :
    (ctxL.correctionsForInvoice.find? (fun x =>
        x.finalDecision = "approved" ∨ x.finalDecision = "rejected")).map
        (fun d => d.finalDecision) = some "approved" ∧
    learnPhase (emptyDB true) ctxL 0 [] [] [] =
      (dbL1, some ([⟨"learn", 0, .learnOutcome .approved "INV-L"⟩], [])) ∧
    learnPhase dbL1 ctxL 1 ["k"] ["i"] [] =
      (dbL1, some ([⟨"learn", 1, .skippedLearning ctxL.extracted.invoiceId⟩], [])) :=
  ⟨by decide, rfl,
   learn_twice_noop (emptyDB true) dbL1 ctxL 0 1 [] [] ["k"] ["i"] [] []
     ([⟨"learn", 0, .learnOutcome .approved "INV-L"⟩], [])
     (by decide) rfl⟩

/-! ### Concrete re-run scenario (C5 counterexample): invoice `INV-1` is
already learned, and a trusted correction-memory entry matches the S0
quantity mismatch — the Apply phase marks it used, rewriting the store. -/

/-- A trusted, recently used quantity correction-memory entry. -/
def rowC5 : CorrectionMemoryRow :=
  { id := "CM1", vendor := "Acme", fieldPath := "lineItems[].qty"
    patternType := "sku", patternValue := "S1", recommendedValue := "7"
    confidence := 1, supportCount := 1, rejectCount := 0
    lastUsedAt := some 1, createdAt := 1, status := some .active }

/-- Store with the trusted entry and `INV-1` already learned. -/
def dbC5 : DB :=
  { emptyDB true with correctionMemory := [rowC5], learningEvents := ["INV-1"] }

/-- The quantity correction proposed from correction memory in the re-run. -/
noncomputable def corrC5 : Correction :=
  { field := "lineItems[sku=S1].qty", fromVal := .num ((5 : ℚ) : ℝ)
    toVal := .num ((7 : ℚ) : ℝ), source := "correction_memory"
    confidence := 1, reason := .dnQtyDiffers 7 5 "S1" }

/-- The Apply-phase state entering the quantity loop in the re-run. -/
noncomputable def s2C5 : AState :=
  { db := dbC5, corrections := [], score := 0.25, usedKeys := [], usedIds := []
    trail := [⟨"recall", 0, .recalledVendorMems 0 "Acme"⟩,
              ⟨"recall", 0, .recalledCorrMems 1 "Acme"⟩]
    reasons := [] }

/-- The Apply-phase state after the quantity loop in the re-run: the entry
was marked used. -/
noncomputable def s3C5 : AState :=
  { db := markUsed dbC5 "CM1" 0
    corrections := [corrC5]
    score := max 0.25 1
    usedKeys := ["qty_to_delivery_note"]
    usedIds := ["CM1"]
    trail := [⟨"recall", 0, .recalledVendorMems 0 "Acme"⟩,
              ⟨"recall", 0, .recalledCorrMems 1 "Acme"⟩,
              ⟨"apply", 0, .resolutionApplied "qty_to_delivery_note" .noHistory⟩]
    reasons := [.qtyMem "S1"] }

/-- Elapsed days of the entry last used in the logical future: zero. -/
theorem daysSince_C5 : daysSince (some (1 : ℚ)) 0 = JDays.finite 0 := by
  unfold daysSince
  dsimp only []
  rw [if_pos (show (0 : ℚ) - 1 ≤ 0 by norm_num)]

/-- No decay at zero elapsed days for the raw stored confidence. -/
theorem decay_C5_raw : decayedConfidence ((1 : ℚ) : ℝ) (.finite 0) = 1 := by
  unfold decayedConfidence
  dsimp only []
  rw [if_pos le_rfl]
  unfold clamp01
  push_cast
  rw [min_self, max_eq_right zero_le_one]

/-- No decay at zero elapsed days for the floored base. -/
theorem decay_C5_base :
    decayedConfidence (max 0.75 ((1 : ℚ) : ℝ)) (.finite 0) = 1 := by
  unfold decayedConfidence
  dsimp only []
  rw [if_pos le_rfl]
  unfold clamp01
  push_cast
  rw [max_eq_right (by norm_num : (0.75 : ℝ) ≤ 1), min_self,
    max_eq_right zero_le_one]

/-- The trusted entry is not suspect. -/
theorem notSuspect_C5 : isSuspectCorrectionMemory (some rowC5) none 0 = false := by
  unfold isSuspectCorrectionMemory
  dsimp only [rowC5]
  rw [if_neg (by decide)]
  rw [if_neg (show ¬ (2 ≤ (0 : ℕ)) by decide)]
  rw [if_neg (show ¬ ((0 : ℚ) < 1 ∧ (1 : ℚ) < 0.65) by norm_num)]
  rw [if_neg (by decide)]
  dsimp only [Option.getD]
  rw [daysSince_C5, decay_C5_raw]
  rw [decide_eq_false (by norm_num : ¬ ((1 : ℝ) < 0.65))]

/-- The quantity loop of the re-run: the correction comes from correction
memory, which is marked used. -/
theorem qtyStep_C5 : qtyStep ctxS0 0 s2C5 = s3C5 := by
  have hfm : findCorrectionMemory dbC5 ctxS0.vendor "lineItems[].qty" "sku" "S1" =
      some rowC5 := rfl
  have hres : getResolution dbC5 ctxS0.vendor "qty_to_delivery_note" = none := rfl
  show qtyItemStep ctxS0 0 s2C5 ⟨some "S1", some 5, none⟩ = s3C5
  unfold qtyItemStep
  try dsimp only []
  rw [show findMatchingDeliveryQty ctxS0 "S1" = some (7 : ℚ) from rfl]
  try dsimp only []
  rw [if_neg (show ¬ (7 : ℚ) = 5 by decide)]
  dsimp only [s2C5]
  rw [hres, hfm, notSuspect_C5]
  simp only [Option.isSome_some, Bool.not_false, Bool.and_self, Bool.true_and,
    Bool.and_true, Option.map_some', Option.getD_some, rowC5, if_true]
  rw [daysSince_C5, decay_C5_base]
  rw [show applyResolutionMemoryToConfidence dbC5 ctxS0.vendor
      "qty_to_delivery_note" 1 = (1, .noHistory) from rfl]
  rfl

/-- The Apply phase of the re-run. -/
theorem applyStages_C5 :
    applyStages dbC5 ctxS0 0 =
      { s3C5 with trail := s3C5.trail ++ [⟨"apply", 0, .proposedCount 1⟩] } := by
  have step1 : applyStages dbC5 ctxS0 0 =
      (fun s6 : AState => { s6 with trail := s6.trail ++
        [⟨"apply", 0, .proposedCount s6.corrections.length⟩] })
      (freightStep ctxS0 0 []
        (currencyStep ctxS0 0 [] (qtyStep ctxS0 0 s2C5))) := rfl
  rw [step1, qtyStep_C5]
  rfl

/-- The high-confidence correction of the re-run does not trip the review
gate. -/
theorem anyLowB_C5 : anyLowB [corrC5] = false := by
  simp only [anyLowB, corrC5, List.any_cons, List.any_nil, Bool.or_false,
    List.length_cons, List.length_nil]
  rw [decide_eq_false (by norm_num : ¬ ((1 : ℝ) < 0.75))]
  simp

/-- The rounded minimum confidence of the re-run. -/
theorem minConf_C5 : round2 (minConf [corrC5]) = 1 := by
  unfold minConf corrC5 round2
  norm_num [round_eq]

/-- The pipeline output of the re-run. -/
noncomputable def outC5 : AgentOutput :=
  { normalizedInvoice := fieldsS0
    proposedCorrections := [corrC5]
    requiresHumanReview := false
    reasoning := [.qtyMem "S1"]
    confidenceScore := 1
    memoryUpdates := []
    auditTrail := [⟨"recall", 0, .recalledVendorMems 0 "Acme"⟩,
                   ⟨"recall", 0, .recalledCorrMems 1 "Acme"⟩,
                   ⟨"apply", 0, .resolutionApplied "qty_to_delivery_note" .noHistory⟩,
                   ⟨"apply", 0, .proposedCount 1⟩,
                   ⟨"decide", 0, .decideMsg
                     "Auto-correct possible: all corrections high confidence."⟩,
                   ⟨"learn", 0, .skippedLearning "INV-1"⟩] }

/-- The re-run end to end: Learn is skipped, yet the store comes back with
the correction-memory row's `lastUsedAt` rewritten. -/
theorem runPipeline_C5 :
    runPipeline dbC5 ctxS0 0 = (markUsed dbC5 "CM1" 0, some outC5) := by
  have hlearn : learnPhase (markUsed dbC5 "CM1" 0) ctxS0 0 ["qty_to_delivery_note"]
      ["CM1"] (getVendorMemories dbC5 ctxS0.vendor) =
      (markUsed dbC5 "CM1" 0, some ([⟨"learn", 0, .skippedLearning "INV-1"⟩], [])) := rfl
  have hcrit : hasCriticalMissingFields ctxS0.extracted.fields [corrC5] = false := rfl
  unfold runPipeline
  rw [show detectDuplicate dbC5 ctxS0.extracted = none from rfl]
  unfold runAfterGuard
  rw [applyStages_C5]
  dsimp only [s3C5]
  rw [anyLowB_C5, hcrit]
  rw [minConf_C5, hlearn]
  rfl

/-- **C5 counterexample.** Invoice `INV-1` is already learned, so by the
claim a re-run performs no memory-store mutation — yet the pipeline returns
a store whose correction-memory table differs (the matched entry's
`lastUsedAt` is rewritten by the Apply phase's `markUsed`). -/
theorem relearn_run_mutates_correction_memory :
    hasLearned dbC5 ctxS0.extracted.invoiceId = true ∧
    (runPipeline dbC5 ctxS0 0).1.correctionMemory ≠ dbC5.correctionMemory := by
  refine ⟨rfl, ?_⟩
  rw [runPipeline_C5]
  decide

/-! ### Concrete disabled-entry scenario (C9): an administratively disabled
vendor-memory entry meets the Learn phase's approval upsert. -/

/-- A vendor-memory entry disabled by the admin interface (`status =
disabled`, `disabledAt` stamped). -/
def rowC9 : VendorMemoryRow :=
  { id := "Acme::serviceDate_from_label::Leistungsdatum", vendor := "Acme"
    kind := "serviceDate_from_label", pattern := "Leistungsdatum"
    confidence := 0, supportCount := 3, rejectCount := 0
    lastUsedAt := some 0, status := .disabled, disabledAt := some 5 }

/-- Store holding only the disabled entry. -/
def dbC9 : DB := { emptyDB true with vendorMemory := [rowC9] }

/-- The Learn-style upsert record hitting the same id. -/
def memC9 : VendorMemUpsert :=
  { id := "Acme::serviceDate_from_label::Leistungsdatum", vendor := "Acme"
    kind := "serviceDate_from_label", pattern := "Leistungsdatum"
    confidence := 1, supportCount := 4, rejectCount := 0
    lastUsedAt := some 9, status := .active }

/-- The disabled entry as the conflicting Learn upsert rewrites it. -/
def rowC9upd : VendorMemoryRow :=
  { rowC9 with confidence := min 0.95 (0.6 + 0.1), supportCount := 1
               rejectCount := 0, lastUsedAt := some 0, status := .active }

/-- **C9 counterexample.** The Learn phase's approval upsert
(`vendorLearnUpsert`, via `upsertVendorMemory`'s `ON CONFLICT` update)
returns the disabled entry's `status` column to `active` — the pipeline does
flip a disabled status back, contrary to the claim. -/
theorem learn_upsert_reactivates_disabled :
    rowC9.status = .disabled ∧
    ∃ r' ∈ (vendorLearnUpsert dbC9 [] "Acme" "serviceDate_from_label"
        "Leistungsdatum" 0 none).1.vendorMemory,
      r'.id = rowC9.id ∧ r'.status = .active := by
  have h : (vendorLearnUpsert dbC9 [] "Acme" "serviceDate_from_label"
      "Leistungsdatum" 0 none).1.vendorMemory = [rowC9upd] := rfl
  refine ⟨rfl, rowC9upd, ?_, rfl, rfl⟩
  rw [h]
  exact List.mem_singleton.mpr rfl

/-- **C9 witness.** The disabled entry of `dbC9` survives the conflicting
active upsert without ever being recalled: every row the recall query
returns after the upsert has a different id. -/
theorem disabled_entry_not_recalled_witness :
    rowC9 ∈ dbC9.vendorMemory ∧
    (∀ x ∈ dbC9.vendorMemory, x.id = rowC9.id → x.disabledAt ≠ none) ∧
    ∀ r' ∈ getVendorMemories (upsertVendorMemory dbC9 memC9) "Acme",
      r'.id ≠ rowC9.id := by
  have hr : rowC9 ∈ dbC9.vendorMemory := List.mem_singleton.mpr rfl
  have hd : ∀ x ∈ dbC9.vendorMemory, x.id = rowC9.id → x.disabledAt ≠ none := by
    decide
  exact ⟨hr, hd, disabled_entry_not_recalled dbC9 memC9 rowC9 "Acme" hr hd⟩

end InvoicePipeline
